import Mathlib

/-!
Verification of the MS-DRG grouper (`drg_grouper`).

This file gives a shallow embedding of the grouper's core code:
`data/models.py` (data model), `grouper.py` (grouping engine),
`parser/appendix_b.py` (DRG-range expansion) and `parser/mdc_logic.py`
(the MDC-logic file parser), together with theorems settling the
specification claims about them.

Modelling conventions:
- Python `str` is `String`; all character-level operations (upper/lower
  casing, containment, splitting, stripping) are defined here over the
  underlying `List Char` so that every definition evaluates by kernel
  reduction.
- Python `dict` is an association list `List (String × α)` with
  first-match lookup (`alookup`) and in-place update (`aset`), preserving
  insertion order as Python dicts do.
- Python `Optional[str]` is `Option String`.  Python's truthiness test on
  such a value (`if x:` is false for both `None` and `""`) is modelled by
  `truthy`; identity tests (`x is not None`) are modelled by `Option.isSome`,
  matching each test used at the corresponding source line.
- Python `int(s)` on DRG strings is modelled by a digit parser; for the
  range expander, where failure behaviour matters, `pyInt?` also accepts a
  sign, as `int` does (underscore grouping and non-ASCII digits accepted by
  Python are not modelled; the inputs here are plain ASCII tokens).
-/

/-- Python `c in s` for a single character `c` (e.g. `'-' in part`). -/
def charIn (c : Char) (s : String) : Bool :=
  s.data.contains c

/-- Does `pat` occur at the start of `l`? (helper for substring search). -/
def leadsWith : List Char → List Char → Bool
  | [], _ => true
  | _ :: _, [] => false
  | a :: as, b :: bs => a == b && leadsWith as bs

/-- Does `pat` occur contiguously anywhere in `l`? (helper for `in`). -/
def occursIn (pat : List Char) : List Char → Bool
  | [] => pat.isEmpty
  | c :: rest => leadsWith pat (c :: rest) || occursIn pat rest

/-- Python `pat in s` for strings (substring containment). -/
def sContains (s pat : String) : Bool :=
  occursIn pat.data s.data

/-- Python `s.upper()` (ASCII model). -/
def upperS (s : String) : String :=
  String.mk (s.data.map Char.toUpper)

/-- Python `s.lower()` (ASCII model). -/
def lowerS (s : String) : String :=
  String.mk (s.data.map Char.toLower)

/-- Python `s.strip()`: remove leading and trailing whitespace. -/
def stripS (s : String) : String :=
  String.mk (((s.data.dropWhile Char.isWhitespace).reverse.dropWhile Char.isWhitespace).reverse)

/-- Code canonicalisation as written in `grouper.py`:
`code.upper().replace(".", "")`.  Replacing the single-character pattern
`"."` by the empty string removes every `'.'`. -/
def canon (s : String) : String :=
  String.mk ((s.data.map Char.toUpper).filter (fun c => c != '.'))

/-- Code canonicalisation as written in `models.py` `__post_init__`:
`code.replace(".", "").upper()`. -/
def canonPost (s : String) : String :=
  String.mk ((s.data.filter (fun c => c != '.')).map Char.toUpper)

/-- Python truthiness of an `Optional[str]`: `None` and `""` are falsy. -/
def truthy : Option String → Bool
  | none => false
  | some s => s != ""

/-- Python `str(x)` for an `Optional[str]` (used in f-strings): `None`
prints as `"None"`. -/
def pyStr : Option String → String
  | none => "None"
  | some s => s

/-- Python `dict.get`: first-match lookup in an association list. -/
def alookup {α : Type} : List (String × α) → String → Option α
  | [], _ => none
  | (k, v) :: rest, key => if k == key then some v else alookup rest key

/-- Python `d[k] = v`: replace the value at `k` in place, or append a new
binding at the end (insertion order preserved, as for a Python dict). -/
def aset {α : Type} : List (String × α) → String → α → List (String × α)
  | [], k, v => [(k, v)]
  | (k', v') :: rest, k, v =>
    if k' == k then (k, v) :: rest else (k', v') :: aset rest k v

/-- Left-pad a string with `'0'` to width `w` (the unsigned core of
Python `str.zfill`). -/
def zfillW (w : Nat) (s : String) : String :=
  String.mk (List.replicate (w - s.length) '0') ++ s

/-- Python `str(n).zfill(3)` for a natural number. -/
def zfill3 (n : Nat) : String :=
  zfillW 3 (toString n)

/-- Python `str(i).zfill(3)` for an integer (`zfill` pads after the sign). -/
def zfillInt (i : Int) : String :=
  if i < 0 then "-" ++ zfillW 2 (toString i.natAbs) else zfill3 i.toNat

/-- Numeric value of a digit string (most significant first). -/
def digitsVal (l : List Char) : Nat :=
  l.foldl (fun a c => a * 10 + (c.toNat - 48)) 0

/-- Parse a non-empty list of ASCII digits, else `none`. -/
def natValL (l : List Char) : Option Nat :=
  if !l.isEmpty && l.all Char.isDigit then some (digitsVal l) else none

/-- Python `int(s)` restricted to optional-sign ASCII decimal notation;
`none` models a raised `ValueError`. -/
def pyInt? (s : String) : Option Int :=
  match s.data with
  | '+' :: rest => (natValL rest).map Int.ofNat
  | '-' :: rest => (natValL rest).map (fun n => -(n : Int))
  | l => (natValL l).map Int.ofNat

/-- Python `int(s)` for the unsigned DRG-number strings used by the
grouping engine; non-numeric input (which would raise in Python) is
mapped to `0` and excluded by hypotheses where it matters. -/
def natDigits? (s : String) : Option Nat :=
  natValL s.data

/-- Python `range(a, b + 1)` over integers. -/
def intRange (a b : Int) : List Int :=
  (List.range (b + 1 - a).toNat).map (fun (k : Nat) => a + (k : Int))

/-- Python `s.split(sep)` for a single-character separator (no collapsing:
`"".split(",") == [""]`). -/
def splitChar (sep : Char) : List Char → List (List Char)
  | [] => [[]]
  | c :: rest =>
    let r := splitChar sep rest
    if c == sep then [] :: r
    else
      match r with
      | h :: t => (c :: h) :: t
      | [] => [[c]]

/-- Python `s.split(",")` returning strings. -/
def splitComma (s : String) : List String :=
  (splitChar ',' s.data).map String.mk

/-- Python `s.replace(" ", "")`. -/
def dropSpaces (s : String) : String :=
  String.mk (s.data.filter (fun c => c != ' '))

/-- Python `s.split(c, 1)`: split at the first occurrence of `c`,
`none` when `c` does not occur. -/
def splitFirst (c : Char) : List Char → Option (List Char × List Char)
  | [] => none
  | x :: rest =>
    if x == c then some ([], rest)
    else (splitFirst c rest).map (fun q => (x :: q.1, q.2))

/-- Two consecutive dashes somewhere in the list. -/
def hasDD : List Char → Bool
  | a :: b :: t => (a == '-' && b == '-') || hasDD (b :: t)
  | _ => false

/-! ## Data model (`data/models.py`) -/

/-- Type of DRG - Medical or Surgical. -/
inductive DRGType where
  | MEDICAL
  | SURGICAL
deriving DecidableEq, Repr, BEq

/-- Complication/Comorbidity severity level. -/
inductive CCLevel where
  | NONE
  | CC
  | MCC
deriving DecidableEq, Repr, BEq

/-- Patient discharge status. -/
inductive DischargeStatus where
  | ALIVE
  | EXPIRED
  | TRANSFERRED
deriving DecidableEq, Repr, BEq

/-- A patient encounter for DRG assignment. -/
structure Encounter where
  principal_dx : String
  secondary_dx : List String := []
  procedures : List String := []
  age : Nat := 0
  sex : String := "U"
  discharge_status : DischargeStatus := DischargeStatus.ALIVE
deriving DecidableEq, Repr

/-- `Encounter.__post_init__`: normalise codes (remove dots, uppercase). -/
def normEncounter (e : Encounter) : Encounter :=
  { e with
    principal_dx := canonPost e.principal_dx
    secondary_dx := e.secondary_dx.map canonPost
    procedures := e.procedures.map canonPost
    sex := upperS e.sex }

/-- Definition of a single MS-DRG (Appendix A row). -/
structure DRGDefinition where
  drg : String
  mdc : Option String
  drg_type : DRGType
  description : String
deriving DecidableEq, Repr

/-- `DRGDefinition.is_surgical`. -/
def DRGDefinition.is_surgical (d : DRGDefinition) : Bool :=
  d.drg_type == DRGType.SURGICAL

/-- Information about a diagnosis code from Appendix B. -/
structure DiagnosisInfo where
  code : String
  description : String
  mdc_drg_mappings : List (String × List String)
deriving DecidableEq, Repr

/-- CC/MCC information for a diagnosis code from Appendix C. -/
structure CCMCCInfo where
  code : String
  level : CCLevel
  pdx_exclusion_group : Option String := none
  description : String := ""
deriving DecidableEq, Repr

/-- Information about a procedure code from the MDC logic files
(`mdc_logic.ProcedureCodeInfo`). -/
structure ProcedureCodeInfo where
  code : String
  description : String
  is_or_procedure : Bool
  drgs : List String := []
  requires_combination : Bool := false
  combination_codes : List String := []
deriving DecidableEq, Repr

/-- Logic for a DRG group (`mdc_logic.DRGLogic`). -/
structure DRGLogic where
  drgs : List String
  base_description : String
  mcc_drg : Option String := none
  cc_drg : Option String := none
  no_cc_drg : Option String := none
  procedures : List String := []
deriving DecidableEq, Repr

/-- Result of DRG grouping. -/
structure DRGResult where
  drg : String
  mdc : Option String
  description : String
  drg_type : DRGType
  mcc_dx : Option String := none
  cc_dx : Option String := none
  surgical_procedure : Option String := none
  grouping_notes : List String := []
deriving DecidableEq, Repr

/-- The reference store loaded by `DRGGrouper._load_data` (the DRG
exclusion map is loaded but never consulted by the engine and is omitted). -/
structure Store where
  drg_definitions : List (String × DRGDefinition)
  diagnosis_mappings : List (String × DiagnosisInfo)
  cc_mcc : List (String × CCMCCInfo)
  discharge_alive : List String
  procedure_codes : List (String × ProcedureCodeInfo)
deriving DecidableEq, Repr

/-- Well-formedness of a loaded CC/MCC table: `parse_appendix_c` skips any
row whose code column is empty, so every key is a non-empty string. -/
def ccKeysNE (st : Store) : Prop :=
  ∀ q ∈ st.cc_mcc, q.1 ≠ ""

/-! ## Grouping engine (`grouper.py`) -/

/-- `DRGGrouper._find_cc_mcc`, loop state passed explicitly: scan the
secondary diagnoses in order, record the first MCC and the first CC, and
stop as soon as an MCC is recorded (`if mcc_dx: break`). -/
def findCCMCCAux (d : List (String × CCMCCInfo)) :
    List String → Option String → Option String → Option String × Option String
  | [], mcc, cc => (mcc, cc)
  | dx :: rest, mcc, cc =>
    let code := canon dx
    let p :=
      match alookup d code with
      | some info =>
        if info.level = CCLevel.MCC ∧ truthy mcc = false then (some code, cc)
        else if info.level = CCLevel.CC ∧ truthy cc = false then (mcc, some code)
        else (mcc, cc)
      | none => (mcc, cc)
    if truthy p.1 = true then p else findCCMCCAux d rest p.1 p.2

/-- `DRGGrouper._find_or_procedures`: canonicalised procedures whose table
entry has `is_or_procedure` set. -/
def findORProcedures (tbl : List (String × ProcedureCodeInfo)) (procs : List String) : List String :=
  (procs.map canon).filter (fun c =>
    match alookup tbl c with
    | some i => i.is_or_procedure
    | none => false)

/-- The hard-coded Pre-MDC procedure table of `DRGGrouper._check_pre_mdc`:
code to `(with-MCC DRG, without-MCC DRG)`. -/
def preMdcTable : List (String × (String × String)) :=
  [ ("02YA0Z0", ("001", "002")),
    ("02YA0Z1", ("001", "002")),
    ("02YA0Z2", ("001", "002")),
    ("0FY00Z0", ("005", "006")),
    ("0FY00Z1", ("005", "006")),
    ("0FY00Z2", ("005", "006")),
    ("0BYK0Z0", ("007", "007")),
    ("0BYK0Z1", ("007", "007")),
    ("0BYK0Z2", ("007", "007")),
    ("0BYL0Z0", ("007", "007")),
    ("0BYL0Z1", ("007", "007")),
    ("0BYL0Z2", ("007", "007")),
    ("0BYM0Z0", ("007", "007")),
    ("0BYM0Z1", ("007", "007")),
    ("0BYM0Z2", ("007", "007")),
    ("5A1522F", ("003", "003")) ]

/-- `DRGGrouper._check_pre_mdc`: first procedure (in order) matching the
Pre-MDC table decides the DRG by `has_mcc`. -/
def checkPreMdc (procs : List String) (hasMcc : Bool) : Option String :=
  match procs with
  | [] => none
  | p :: rest =>
    match alookup preMdcTable (canon p) with
    | some pr => some (if hasMcc then pr.1 else pr.2)
    | none => checkPreMdc rest hasMcc

/-- `DRGGrouper._assign_surgical_drg`: for the first OR procedure whose
entry has a non-empty `drgs` list and whose base DRG is in Appendix A,
pick the severity variant using the description heuristic. -/
def assignSurgicalDrg (st : Store) (hasMcc hasCc : Bool) : List String → Option String
  | [] => none
  | p :: rest =>
    match alookup st.procedure_codes p with
    | none => assignSurgicalDrg st hasMcc hasCc rest
    | some info =>
      match info.drgs with
      | [] => assignSurgicalDrg st hasMcc hasCc rest
      | base :: _ =>
        match alookup st.drg_definitions base with
        | none => assignSurgicalDrg st hasMcc hasCc rest
        | some bdef =>
          let baseDesc := lowerS bdef.description
          if !(sContains baseDesc "with mcc" || sContains baseDesc "without mcc" ||
               sContains baseDesc "without cc") then
            some base
          else
            let n := (natDigits? base).getD 0
            if hasMcc then
              some base
            else if hasCc then
              match alookup st.drg_definitions (zfill3 (n + 1)) with
              | some ccDef =>
                if sContains (lowerS ccDef.description) "with cc" then some (zfill3 (n + 1))
                else some base
              | none => some base
            else
              match alookup st.drg_definitions (zfill3 (n + 2)) with
              | some noCcDef =>
                if sContains (lowerS noCcDef.description) "without cc" then some (zfill3 (n + 2))
                else
                  match alookup st.drg_definitions (zfill3 (n + 1)) with
                  | some ccDef =>
                    if sContains (lowerS ccDef.description) "without" ||
                       sContains (lowerS ccDef.description) "with cc" then some (zfill3 (n + 1))
                    else some base
                  | none => some base
              | none =>
                match alookup st.drg_definitions (zfill3 (n + 1)) with
                | some ccDef =>
                  if sContains (lowerS ccDef.description) "without" ||
                     sContains (lowerS ccDef.description) "with cc" then some (zfill3 (n + 1))
                  else some base
                | none => some base

/-- `DRGGrouper.SURGICAL_TO_MEDICAL_FALLBACK`. -/
def surgicalToMedicalFallback : List (String × (String × String × String)) :=
  [ ("173", ("175", "175", "176")) ]

/-- The acute-cor-pulmonale PDX codes of `_assign_medical_drg`. -/
def acuteCorPulmonale : List String :=
  ["I2601", "I2602", "I2603", "I2604", "I2609"]

/-- Loop of `DRGGrouper._assign_medical_drg` over `mdc_drg_mappings`:
first mapping with matching MDC and non-empty DRG list decides; a surgical
candidate is redirected via the fallback table, or skipped. -/
def medLoop (st : Store) (mdc : Option String) (isACP hasMcc hasCc : Bool) :
    List (String × List String) → Option String
  | [] => none
  | (mmdc, drgs) :: rest =>
    if some mmdc = mdc then
      match drgs with
      | [] => medLoop st mdc isACP hasMcc hasCc rest
      | c0 :: tl =>
        if (match alookup st.drg_definitions c0 with
            | some dd => dd.is_surgical
            | none => false) then
          match alookup surgicalToMedicalFallback c0 with
          | some fb => some (if hasMcc || isACP then fb.1 else if hasCc then fb.2.1 else fb.2.2)
          | none => medLoop st mdc isACP hasMcc hasCc rest
        else
          match tl with
          | b :: c :: _ => some (if hasMcc then c0 else if hasCc then b else c)
          | [b] => some (if hasMcc || hasCc then c0 else b)
          | [] => some c0
    else medLoop st mdc isACP hasMcc hasCc rest

/-- `DRGGrouper._assign_medical_drg`. -/
def assignMedicalDrg (st : Store) (pdx : String) (mdc : Option String)
    (hasMcc hasCc : Bool) : Option String :=
  match alookup st.diagnosis_mappings pdx with
  | none => none
  | some dxInfo =>
    medLoop st mdc (acuteCorPulmonale.contains pdx) hasMcc hasCc dxInfo.mdc_drg_mappings

/-- `get_mdc_for_diagnosis` (`appendix_b.py`): first mapping's MDC. -/
def getMdcForDiagnosis (maps : List (String × DiagnosisInfo)) (code : String) : Option String :=
  match alookup maps (canon code) with
  | some di =>
    match di.mdc_drg_mappings with
    | (m, _) :: _ => some m
    | [] => none
  | none => none

/-- One arm of the discharge-status adjustment (`grouper.py` lines 79-84):
clear the code and emit a note when it is truthy and in the
discharge-alive set. -/
def filterOne (tag : String) (aliveCodes : List String) (x : Option String) :
    Option String × List String :=
  match x with
  | some c =>
    if c ≠ "" ∧ aliveCodes.contains c = true then
      (none, [tag ++ " " ++ c ++ " excluded (patient not discharged alive)"])
    else (some c, [])
  | none => (none, [])

/-- The discharge-status adjustment (`grouper.py` lines 78-84): applied
only when the patient was not discharged alive; returns the adjusted
`(mcc_dx, cc_dx)` and the emitted notes. -/
def dischargeFilter (aliveCodes : List String) (status : DischargeStatus)
    (mcc cc : Option String) : Option String × Option String × List String :=
  if status ≠ DischargeStatus.ALIVE then
    let r1 := filterOne "MCC" aliveCodes mcc
    let r2 := filterOne "CC" aliveCodes cc
    (r1.1, r2.1, r1.2 ++ r2.2)
  else (mcc, cc, [])

/-- The severity evidence `(mcc_dx, cc_dx)` recorded by `group` after the
discharge-status adjustment (steps 3 and 4). -/
def recordedSeverity (st : Store) (e : Encounter) : Option String × Option String :=
  let sev := findCCMCCAux st.cc_mcc e.secondary_dx none none
  let filt := dischargeFilter st.discharge_alive e.discharge_status sev.1 sev.2
  (filt.1, filt.2.1)

/-- The sentinel result for an unknown principal diagnosis
(`grouper.py` lines 61-68). -/
def sentinelUnknownPdx (pdx : String) : DRGResult :=
  { drg := "999", mdc := none, description := "Ungroupable",
    drg_type := DRGType.MEDICAL,
    grouping_notes := ["Principal diagnosis " ++ pdx ++ " not found"] }

/-- The Pre-MDC result construction (`grouper.py` lines 88-98). -/
def preMdcResult (st : Store) (pre : String) (mcc cc : Option String)
    (notes : List String) : DRGResult :=
  { drg := pre, mdc := none,
    description :=
      match alookup st.drg_definitions pre with
      | some dd => dd.description
      | none => "Pre-MDC",
    drg_type :=
      match alookup st.drg_definitions pre with
      | some dd => dd.drg_type
      | none => DRGType.SURGICAL,
    mcc_dx := mcc,
    cc_dx := if truthy mcc then none else cc,
    grouping_notes := notes ++ ["Assigned via Pre-MDC logic"] }

/-- Result construction after the surgical/medical branch
(`grouper.py` lines 116-136): a truthy DRG is packaged, otherwise the
`"999"` fallback is returned. -/
def pathResult (st : Store) (mdc : Option String) (orProcs : List String)
    (mcc cc : Option String) (notes : List String) : Option String → DRGResult
  | some d =>
    if d ≠ "" then
      { drg := d, mdc := mdc,
        description :=
          match alookup st.drg_definitions d with
          | some dd => dd.description
          | none => "Unknown",
        drg_type :=
          match alookup st.drg_definitions d with
          | some dd => dd.drg_type
          | none => DRGType.MEDICAL,
        mcc_dx := mcc,
        cc_dx := if truthy mcc then none else cc,
        surgical_procedure := orProcs.head?,
        grouping_notes := notes }
    else
      { drg := "999", mdc := mdc, description := "Ungroupable",
        drg_type := DRGType.MEDICAL,
        grouping_notes := notes ++ ["Could not determine DRG"] }
  | none =>
      { drg := "999", mdc := mdc, description := "Ungroupable",
        drg_type := DRGType.MEDICAL,
        grouping_notes := notes ++ ["Could not determine DRG"] }

/-- Steps 6-7 of `DRGGrouper.group`: OR-procedure branch selection and
DRG assignment. -/
def groupPath (st : Store) (e : Encounter) (mdc : Option String)
    (mcc cc : Option String) (notes : List String) : DRGResult :=
  let orProcs := findORProcedures st.procedure_codes e.procedures
  if orProcs ≠ [] then
    pathResult st mdc orProcs mcc cc
      (notes ++ ["Surgical path: " ++ toString orProcs.length ++ " OR procedure(s)"])
      (assignSurgicalDrg st mcc.isSome cc.isSome orProcs)
  else
    pathResult st mdc orProcs mcc cc
      (notes ++ ["Medical path: no OR procedures"])
      (assignMedicalDrg st e.principal_dx mdc mcc.isSome cc.isSome)

/-- `DRGGrouper.group`: the full grouping pipeline.  The encounter is
expected to have gone through `normEncounter` (Python's `__post_init__`);
`group` itself re-canonicalises exactly where the source does. -/
def group (st : Store) (e : Encounter) : DRGResult :=
  match alookup st.diagnosis_mappings e.principal_dx with
  | none => sentinelUnknownPdx e.principal_dx
  | some _ =>
    let mdc := getMdcForDiagnosis st.diagnosis_mappings e.principal_dx
    let sev := findCCMCCAux st.cc_mcc e.secondary_dx none none
    let mcc := (recordedSeverity st e).1
    let cc := (recordedSeverity st e).2
    let notes := ("MDC " ++ pyStr mdc ++ " from PDX " ++ e.principal_dx)
      :: (dischargeFilter st.discharge_alive e.discharge_status sev.1 sev.2).2.2
    match checkPreMdc e.procedures mcc.isSome with
    | some pre =>
      if pre ≠ "" then preMdcResult st pre mcc cc notes
      else groupPath st e mdc mcc cc notes
    | none => groupPath st e mdc mcc cc notes

/-! ## DRG-range expansion (`parser/appendix_b.py`, `parser/appendix_c.py`) -/

/-- Body of the `for part in parts` loop of `expand_drg_range`: expand one
comma-separated part. -/
def expandPart (p : String) : List String :=
  if charIn '-' p then
    match splitFirst '-' p.data with
    | some (a, b) =>
      match pyInt? (String.mk a), pyInt? (String.mk b) with
      | some s, some e => (intRange s e).map zfillInt
      | _, _ => [p]
    | none => [p]
  else
    match pyInt? p with
    | some v => [zfillInt v]
    | none => if p.data.isEmpty then [] else [p]

/-- `expand_drg_range` (`appendix_b.py`): strip spaces, split on commas,
expand each part in order. -/
def expandDrgRange (tok : String) : List String :=
  (splitComma (dropSpaces tok)).flatMap expandPart

/-- `expand_drg_range_simple` (`appendix_c.py`). -/
def expandDrgRangeSimple (r : String) : List String :=
  if charIn '-' r then
    match splitChar '-' r.data with
    | a :: b :: _ =>
      match pyInt? (String.mk a), pyInt? (String.mk b) with
      | some s, some e => (intRange s e).map zfillInt
      | _, _ => [r]
    | _ => [r]
  else
    [zfillW 3 r]

/-! ## MDC-logic parser (`parser/mdc_logic.py`) -/

/-- Parser section state (`current_section`). -/
inductive MdcSection where
  | opRoom
  | nonOpRoom
  | diagnosis
deriving DecidableEq, Repr, BEq

/-- State of the `parse_mdc_file` line loop. -/
structure MDCState where
  procedure_codes : List (String × ProcedureCodeInfo) := []
  drg_logic : List (String × DRGLogic) := []
  current_drg : Option String := none
  current_section : Option MdcSection := none
  is_or_section : Bool := false
  pending_combination : Option String := none
deriving DecidableEq, Repr

/-- Skip whitespace, requiring at least one whitespace character
(regex `\s+`, greedy). -/
def wsDrop1 (l : List Char) : Option (List Char) :=
  match l with
  | c :: rest => if c.isWhitespace then some (rest.dropWhile Char.isWhitespace) else none
  | [] => none

/-- The character class `[A-Z0-9]` of the procedure-code regexes. -/
def classChar (c : Char) : Bool :=
  c.isUpper || c.isDigit

/-- Regex `^DRG\s+(\d{3})\s+(.+)$` applied to the stripped line: returns
the DRG number and the description. -/
def matchDRGHeader (s : String) : Option (String × String) :=
  match s.data with
  | 'D' :: 'R' :: 'G' :: r0 =>
    match wsDrop1 r0 with
    | some r1 =>
      match r1 with
      | d1 :: d2 :: d3 :: r2 =>
        if d1.isDigit && d2.isDigit && d3.isDigit then
          match wsDrop1 r2 with
          | some r3 => if r3.isEmpty then none else some (String.mk [d1, d2, d3], String.mk r3)
          | none => none
        else none
      | _ => none
    | none => none
  | _ => none

/-- Regex `^\s+and\s+([A-Z0-9]{7})\*?\s+(.*)$` applied to the raw line:
returns the combination partner code and the trailing text. -/
def matchAnd (line : String) : Option (String × String) :=
  match wsDrop1 line.data with
  | some r0 =>
    match r0 with
    | 'a' :: 'n' :: 'd' :: r1 =>
      match wsDrop1 r1 with
      | some r2 =>
        let code := r2.take 7
        if code.length == 7 && code.all classChar then
          let r3 := r2.drop 7
          let r4 := match r3 with
            | '*' :: t => t
            | _ => r3
          match wsDrop1 r4 with
          | some r5 => some (String.mk code, String.mk r5)
          | none => none
        else none
      | none => none
    | _ => none
  | none => none

/-- Regex `^\s{2}([A-Z0-9]{7})\*?\s+(.*)$` applied to the raw line
(exactly two leading whitespace characters, then the code): returns the
code and the trailing text. -/
def matchProc (line : String) : Option (String × String) :=
  match line.data with
  | w1 :: w2 :: r0 =>
    if w1.isWhitespace && w2.isWhitespace then
      let code := r0.take 7
      if code.length == 7 && code.all classChar then
        let r1 := r0.drop 7
        let r2 := match r1 with
          | '*' :: t => t
          | _ => r1
        match wsDrop1 r2 with
        | some r3 => some (String.mk code, String.mk r3)
        | none => none
      else none
    else none
  | _ => none

/-- Severity-role detection on a DRG header description
(`mdc_logic.py` lines 68-75). -/
def updateLogicSeverity (drg : String) (description : String) (l : DRGLogic) : DRGLogic :=
  if sContains description "with MCC" then { l with mcc_drg := some drg }
  else if sContains description "with CC" && !sContains description "without CC" then
    { l with cc_drg := some drg }
  else if sContains description "without CC/MCC" || sContains description "without MCC" then
    { l with no_cc_drg := some drg }
  else l

/-- One iteration of the `parse_mdc_file` line loop. -/
def mdcStep (st : MDCState) (line : String) : MDCState :=
  let stripped := stripS line
  match matchDRGHeader stripped with
  | some (drg, description) =>
    let l0 :=
      match alookup st.drg_logic drg with
      | some l => l
      | none => { drgs := [drg], base_description := description : DRGLogic }
    { st with
      current_drg := some drg
      drg_logic := aset st.drg_logic drg (updateLogicSeverity drg description l0) }
  | none =>
    if sContains stripped "OPERATING ROOM PROCEDURES" && !sContains stripped "NON-" then
      { st with current_section := some MdcSection.opRoom, is_or_section := true }
    else if sContains stripped "NON-OPERATING ROOM PROCEDURES" then
      { st with current_section := some MdcSection.nonOpRoom, is_or_section := false }
    else if sContains stripped "PRINCIPAL" || sContains stripped "SECONDARY" then
      { st with current_section := some MdcSection.diagnosis }
    else if st.current_section = some MdcSection.diagnosis then st
    else if st.current_section = some MdcSection.opRoom ∨
            st.current_section = some MdcSection.nonOpRoom then
      match matchAnd line with
      | some (code, rawDesc) =>
        match st.pending_combination with
        | some anchor =>
          if anchor ≠ "" ∧ code ≠ "" then
            let procs1 :=
              match alookup st.procedure_codes anchor with
              | some info =>
                aset st.procedure_codes anchor
                  { info with
                    requires_combination := true
                    combination_codes := info.combination_codes ++ [code] }
              | none => st.procedure_codes
            let procs2 :=
              aset procs1 code
                { code := code, description := stripS rawDesc,
                  is_or_procedure := st.is_or_section,
                  drgs :=
                    match st.current_drg with
                    | some d => if d ≠ "" then [d] else []
                    | none => [] : ProcedureCodeInfo }
            { st with procedure_codes := procs2 }
          else st
        | none => st
      | none =>
        match matchProc line with
        | some (code, rawDesc) =>
          let hasAst := (line.data.take 20).contains '*'
          let effectiveIsOr := st.is_or_section && !hasAst
          let procs1 :=
            if (alookup st.procedure_codes code).isSome then st.procedure_codes
            else
              aset st.procedure_codes code
                { code := code, description := stripS rawDesc,
                  is_or_procedure := effectiveIsOr : ProcedureCodeInfo }
          let procs2 :=
            match st.current_drg with
            | some d =>
              if d ≠ "" then
                match alookup procs1 code with
                | some info => aset procs1 code { info with drgs := info.drgs ++ [d] }
                | none => procs1
              else procs1
            | none => procs1
          { st with procedure_codes := procs2, pending_combination := some code }
        | none => st
    else st

/-- `parse_mdc_file` applied to the list of lines of the file. -/
def parseMdcLines (lines : List String) : MDCState :=
  lines.foldl mdcStep {}

/-! ## Specification-side definitions (used to state the claims) -/

/-- The first secondary diagnosis (canonicalised) whose CC/MCC level is
`CC`, as the specification describes the recorded `cc_dx`. -/
def firstCCIn (d : List (String × CCMCCInfo)) (l : List String) : Option String :=
  ((l.map canon).filter (fun c =>
    match alookup d c with
    | some i => i.level == CCLevel.CC
    | none => false)).head?

/-- Does the catalogued description of `drg` (lowercased) contain `pat`?
(False when `drg` is not in the catalogue.) -/
def descContains (defs : List (String × DRGDefinition)) (drg pat : String) : Bool :=
  match alookup defs drg with
  | some dd => sContains (lowerS dd.description) pat
  | none => false

/-- A part of the form `NNN`: a non-empty all-digit string. -/
def isNNN (s : String) : Bool :=
  !s.data.isEmpty && s.data.all Char.isDigit

/-- Per-part expansion as the specification words it: a numeric singleton
is 3-digit zero-padded, `NNN-NNN` expands to the inclusive ascending
range, and a non-numeric part passes through as-is. -/
def specPart (p : String) : List String :=
  if isNNN p then [zfill3 (digitsVal p.data)]
  else
    match splitFirst '-' p.data with
    | some (a, b) =>
      if isNNN (String.mk a) && isNNN (String.mk b) then
        (List.range (digitsVal b + 1 - digitsVal a)).map (fun k => zfill3 (digitsVal a + k))
      else [p]
    | none => [p]

/-! ## Concrete instances used by witnesses and counterexamples -/

/-- A small loaded store exercising the main paths. -/
def stW : Store :=
  { drg_definitions :=
      [ ("100", { drg := "100", mdc := some "08", drg_type := DRGType.SURGICAL,
                  description := "Joint procedure with MCC" }),
        ("101", { drg := "101", mdc := some "08", drg_type := DRGType.SURGICAL,
                  description := "Joint procedure with CC" }),
        ("102", { drg := "102", mdc := some "08", drg_type := DRGType.SURGICAL,
                  description := "Joint procedure without CC/MCC" }),
        ("002", { drg := "002", mdc := none, drg_type := DRGType.SURGICAL,
                  description := "Heart transplant without MCC" }) ],
    diagnosis_mappings :=
      [ ("J189", { code := "J189", description := "Pneumonia, unspecified organism",
                   mdc_drg_mappings := [("04", ["193", "194", "195"])] }),
        ("Z941", { code := "Z941", description := "Heart transplant status",
                   mdc_drg_mappings := [("05", ["302"])] }) ],
    cc_mcc :=
      [ ("I10", { code := "I10", level := CCLevel.CC }),
        ("E1100", { code := "E1100", level := CCLevel.MCC }),
        ("I462", { code := "I462", level := CCLevel.MCC }) ],
    discharge_alive := ["I462"],
    procedure_codes :=
      [ ("0SRC0J9", { code := "0SRC0J9", description := "Knee replacement",
                      is_or_procedure := true, drgs := ["100"] }) ] }

/-- A store that satisfies the catalogue-coherence hypotheses of the
amended catalogue invariant. -/
def stC8 : Store :=
  { drg_definitions :=
      [ ("001", { drg := "001", mdc := none, drg_type := DRGType.SURGICAL,
                  description := "Heart transplant with MCC" }),
        ("002", { drg := "002", mdc := none, drg_type := DRGType.SURGICAL,
                  description := "Heart transplant without MCC" }),
        ("003", { drg := "003", mdc := none, drg_type := DRGType.SURGICAL,
                  description := "ECMO" }),
        ("005", { drg := "005", mdc := none, drg_type := DRGType.SURGICAL,
                  description := "Liver transplant with MCC" }),
        ("006", { drg := "006", mdc := none, drg_type := DRGType.SURGICAL,
                  description := "Liver transplant without MCC" }),
        ("007", { drg := "007", mdc := none, drg_type := DRGType.SURGICAL,
                  description := "Lung transplant" }),
        ("175", { drg := "175", mdc := some "04", drg_type := DRGType.MEDICAL,
                  description := "Pulmonary embolism with MCC or acute cor pulmonale" }),
        ("176", { drg := "176", mdc := some "04", drg_type := DRGType.MEDICAL,
                  description := "Pulmonary embolism without MCC" }),
        ("193", { drg := "193", mdc := some "04", drg_type := DRGType.MEDICAL,
                  description := "Simple pneumonia with MCC" }),
        ("194", { drg := "194", mdc := some "04", drg_type := DRGType.MEDICAL,
                  description := "Simple pneumonia with CC" }),
        ("195", { drg := "195", mdc := some "04", drg_type := DRGType.MEDICAL,
                  description := "Simple pneumonia without CC/MCC" }) ],
    diagnosis_mappings :=
      [ ("J189", { code := "J189", description := "Pneumonia, unspecified organism",
                   mdc_drg_mappings := [("04", ["193", "194", "195"])] }) ],
    cc_mcc := [ ("E1100", { code := "E1100", level := CCLevel.MCC }) ],
    discharge_alive := [],
    procedure_codes := [] }

/-- A store whose Appendix B mappings reference DRGs that are absent from
the Appendix A catalogue (nothing in the parsers prevents this). -/
def stBad : Store :=
  { drg_definitions := [],
    diagnosis_mappings :=
      [ ("A000", { code := "A000", description := "Cholera",
                   mdc_drg_mappings := [("06", ["371", "372", "373"])] }) ],
    cc_mcc := [],
    discharge_alive := [],
    procedure_codes := [] }

/-- Input lines on which a procedure code reappears on a combination
`and` line after having been registered on a regular line. -/
def cexLines : List String :=
  [ "OPERATING ROOM PROCEDURES",
    "DRG 001 First group",
    "  ABCDEF1  first description",
    "DRG 002 Second group",
    "  QQQQQ17  anchor procedure",
    "  and ABCDEF1  second description" ]

/-- Parser state in which `ABCDEF1` is already registered, used to witness
the regular-line re-registration behaviour. -/
def stA1 : MDCState :=
  { procedure_codes :=
      [ ("ABCDEF1", { code := "ABCDEF1", description := "first description",
                      is_or_procedure := true, drgs := ["001"] }) ],
    current_drg := some "002",
    current_section := some MdcSection.opRoom,
    is_or_section := true,
    pending_combination := none }

/-- Parser state with a pending combination anchor, used to witness the
combination-line behaviour. -/
def stA2 : MDCState :=
  { procedure_codes :=
      [ ("ABCDEF1", { code := "ABCDEF1", description := "first description",
                      is_or_procedure := true, drgs := ["001"] }),
        ("QQQQQ17", { code := "QQQQQ17", description := "anchor procedure",
                      is_or_procedure := true, drgs := ["002"] }) ],
    current_drg := some "002",
    current_section := some MdcSection.opRoom,
    is_or_section := true,
    pending_combination := some "QQQQQ17" }

/-! ## Helper lemmas -/

theorem alookup_mem {α : Type} {l : List (String × α)} {k : String} {v : α}
    (h : alookup l k = some v) : (k, v) ∈ l := by
  induction l with
  | nil => simp [alookup] at h
  | cons p rest ih =>
    obtain ⟨k', v'⟩ := p
    simp only [alookup] at h
    by_cases hk : (k' == k) = true
    · rw [if_pos hk] at h
      obtain rfl : v' = v := by injection h
      obtain rfl : k' = k := eq_of_beq hk
      exact List.mem_cons_self _ _
    · rw [if_neg hk] at h
      exact List.mem_cons_of_mem _ (ih h)

theorem getLast?_append_one {α : Type} (l : List α) (a : α) :
    (l ++ [a]).getLast? = some a :=
  List.getLast?_concat l

/-- Severity-scan step: an unknown code changes nothing. -/
theorem findCC_step_unknown {d : List (String × CCMCCInfo)} {dx : String}
    (rest : List String) (cc : Option String)
    (h : alookup d (canon dx) = none) :
    findCCMCCAux d (dx :: rest) none cc = findCCMCCAux d rest none cc := by
  simp [findCCMCCAux, h, truthy]

/-- Severity-scan step: a known non-CC/MCC level changes nothing. -/
theorem findCC_step_level_none {d : List (String × CCMCCInfo)} {dx : String} {i : CCMCCInfo}
    (rest : List String) (cc : Option String)
    (h : alookup d (canon dx) = some i) (hl : i.level = CCLevel.NONE) :
    findCCMCCAux d (dx :: rest) none cc = findCCMCCAux d rest none cc := by
  simp [findCCMCCAux, h, hl, truthy]

/-- Severity-scan step: an MCC with no recorded MCC is recorded and, being
a non-empty code, stops the scan. -/
theorem findCC_step_mcc {d : List (String × CCMCCInfo)} {dx : String} {i : CCMCCInfo}
    (rest : List String) (cc : Option String)
    (h : alookup d (canon dx) = some i) (hl : i.level = CCLevel.MCC)
    (hne : canon dx ≠ "") :
    findCCMCCAux d (dx :: rest) none cc = (some (canon dx), cc) := by
  simp [findCCMCCAux, h, hl, truthy, hne]

/-- Severity-scan step: a CC with no recorded CC is recorded. -/
theorem findCC_step_cc_record {d : List (String × CCMCCInfo)} {dx : String} {i : CCMCCInfo}
    (rest : List String) (cc : Option String)
    (h : alookup d (canon dx) = some i) (hl : i.level = CCLevel.CC)
    (hcc : truthy cc = false) :
    findCCMCCAux d (dx :: rest) none cc = findCCMCCAux d rest none (some (canon dx)) := by
  simp only [findCCMCCAux, h]
  rw [if_neg (by simp [hl] : ¬ (i.level = CCLevel.MCC ∧ truthy (none : Option String) = false))]
  rw [if_pos (⟨hl, hcc⟩ : i.level = CCLevel.CC ∧ truthy cc = false)]
  simp [truthy]

/-- Severity-scan step: a CC with a truthy recorded CC changes nothing. -/
theorem findCC_step_cc_keep {d : List (String × CCMCCInfo)} {dx : String} {i : CCMCCInfo}
    (rest : List String) (cc : Option String)
    (h : alookup d (canon dx) = some i) (hl : i.level = CCLevel.CC)
    (hcc : truthy cc = true) :
    findCCMCCAux d (dx :: rest) none cc = findCCMCCAux d rest none cc := by
  simp only [findCCMCCAux, h]
  rw [if_neg (by simp [hl] : ¬ (i.level = CCLevel.MCC ∧ truthy (none : Option String) = false))]
  rw [if_neg (by simp [hcc] : ¬ (i.level = CCLevel.CC ∧ truthy cc = false))]
  simp [truthy]

theorem firstCCIn_cons (d : List (String × CCMCCInfo)) (x : String) (pre : List String) :
    firstCCIn d (x :: pre) =
      if (match alookup d (canon x) with
          | some i => i.level == CCLevel.CC
          | none => false) = true
      then some (canon x) else firstCCIn d pre := by
  unfold firstCCIn
  rw [List.map_cons, List.filter_cons]
  by_cases hp : (match alookup d (canon x) with
      | some i => i.level == CCLevel.CC
      | none => false) = true
  · rw [if_pos hp, if_pos hp, List.head?_cons]
  · rw [if_neg hp, if_neg hp]

/-- Scanning `pre ++ m :: post` with no recorded MCC, where no entry of
`pre` is an MCC and `m` is: the scan stops at `m`, and the recorded CC is
the accumulator when truthy, else the first CC of `pre`. -/
theorem findCC_mcc_first (d : List (String × CCMCCInfo)) (hWF : ∀ q ∈ d, q.1 ≠ "")
    (m : String) (post : List String) (im : CCMCCInfo)
    (hm : alookup d (canon m) = some im) (hlev : im.level = CCLevel.MCC) :
    ∀ (pre : List String) (cc : Option String),
      (∀ x ∈ pre, (alookup d (canon x)).map CCMCCInfo.level ≠ some CCLevel.MCC) →
      (cc = none ∨ ∃ c, cc = some c ∧ c ≠ "") →
      findCCMCCAux d (pre ++ m :: post) none cc =
        (some (canon m), if truthy cc = true then cc else firstCCIn d pre) := by
  have hmne : canon m ≠ "" := hWF _ (alookup_mem hm)
  intro pre
  induction pre with
  | nil =>
    intro cc _ hcc
    rw [List.nil_append, findCC_step_mcc post cc hm hlev hmne]
    rcases hcc with rfl | ⟨c, rfl, hcne⟩
    · simp [truthy, firstCCIn]
    · simp [truthy, hcne]
  | cons x pre ih =>
    intro cc hpre hcc
    have hxM : (alookup d (canon x)).map CCMCCInfo.level ≠ some CCLevel.MCC :=
      hpre x (List.mem_cons_self _ _)
    have hpre' : ∀ y ∈ pre, (alookup d (canon y)).map CCMCCInfo.level ≠ some CCLevel.MCC :=
      fun y hy => hpre y (List.mem_cons_of_mem _ hy)
    rw [List.cons_append]
    cases hx : alookup d (canon x) with
    | none =>
      rw [findCC_step_unknown _ cc hx, ih cc hpre' hcc, firstCCIn_cons]
      simp [hx]
    | some i =>
      cases hlevi : i.level with
      | MCC => exact absurd (by simp [hx, hlevi]) hxM
      | NONE =>
        rw [findCC_step_level_none _ cc hx hlevi, ih cc hpre' hcc, firstCCIn_cons]
        simp [hx, hlevi, show (CCLevel.NONE == CCLevel.CC) = false from rfl]
      | CC =>
        have hxne : canon x ≠ "" := hWF _ (alookup_mem hx)
        rcases hcc with rfl | ⟨c, rfl, hcne⟩
        · rw [findCC_step_cc_record _ none hx hlevi (by simp [truthy]),
            ih (some (canon x)) hpre' (Or.inr ⟨canon x, rfl, hxne⟩), firstCCIn_cons]
          simp [truthy, hxne, hx, hlevi, show (CCLevel.CC == CCLevel.CC) = true from rfl]
        · have hct : truthy (some c) = true := by simp [truthy, hcne]
          rw [findCC_step_cc_keep _ (some c) hx hlevi hct, ih (some c) hpre' (Or.inr ⟨c, rfl, hcne⟩)]
          simp [hct]

/-- C1: the severity extraction scans `secondary_dx` in the encounter's
order, records as `mcc_dx` the first canonicalised code whose level is
MCC and as `cc_dx` the first CC seen before it, and stops at the first
MCC, so every later entry has no effect; codes absent from the CC/MCC
table contribute nothing. -/
theorem c1_severity_scan (d : List (String × CCMCCInfo)) (hWF : ∀ q ∈ d, q.1 ≠ "")
    (pre : List String) (m : String) (post : List String)
    (hm : (alookup d (canon m)).map CCMCCInfo.level = some CCLevel.MCC)
    (hpre : ∀ x ∈ pre, (alookup d (canon x)).map CCMCCInfo.level ≠ some CCLevel.MCC) :
    findCCMCCAux d (pre ++ m :: post) none none = (some (canon m), firstCCIn d pre) := by
  obtain ⟨im, hm', hlev⟩ := Option.map_eq_some'.mp hm
  have h := findCC_mcc_first d hWF m post im hm' hlev pre none hpre (Or.inl rfl)
  simpa [truthy] using h

/-- Witness for C1 at a concrete table: the CC `I10` before the MCC
`E1100` is recorded, and the later MCC `I462` is never reached. -/
theorem c1_severity_scan_witness :
    findCCMCCAux stW.cc_mcc (["I10"] ++ "E1100" :: ["I462"]) none none =
      (some "E1100", some "I10") := by
  have h := c1_severity_scan stW.cc_mcc (by decide) ["I10"] "E1100" ["I462"]
    (by decide) (by decide)
  exact h.trans (by decide)

/-- C5: an unknown (canonicalised) principal diagnosis yields exactly the
`"999"` sentinel with a single note identifying the missing code; no
other pipeline step runs. -/
theorem c5_unknown_pdx_sentinel (st : Store) (e : Encounter)
    (h : alookup st.diagnosis_mappings (canonPost e.principal_dx) = none) :
    group st (normEncounter e) = sentinelUnknownPdx (canonPost e.principal_dx) := by
  have he : (normEncounter e).principal_dx = canonPost e.principal_dx := rfl
  unfold group
  rw [he, h]

/-- Witness for C5: a concrete unknown principal diagnosis. -/
theorem c5_unknown_pdx_sentinel_witness :
    group stW (normEncounter { principal_dx := "x9.99" }) = sentinelUnknownPdx "X999" := by
  have h := c5_unknown_pdx_sentinel stW { principal_dx := "x9.99" } (by decide)
  exact h.trans (by decide)

/-- Surgical assignment skips procedures with no entry or an empty DRG
list. -/
theorem surg_skip (st : Store) (hm hc : Bool) (x : String) (l : List String)
    (h : ((alookup st.procedure_codes x).map ProcedureCodeInfo.drgs).getD [] = []) :
    assignSurgicalDrg st hm hc (x :: l) = assignSurgicalDrg st hm hc l := by
  cases hx : alookup st.procedure_codes x with
  | none => simp [assignSurgicalDrg, hx]
  | some i =>
    rw [hx] at h
    simp only [Option.map_some', Option.getD_some] at h
    simp [assignSurgicalDrg, hx, h]

/-- C2: on the surgical path, the first OR procedure with a non-empty
`drgs` list sets `base = drgs[0]`; when `base` is catalogued, the engine
returns `base` unless its description has severity markers, in which case
an MCC keeps `base`, a CC moves to `base+1` exactly when that DRG's
description contains `"with cc"`, and otherwise `base+2` is preferred when
its description contains `"without cc"`, then `base+1` when its
description contains `"without"` or `"with cc"`, else `base`. -/
theorem c2_surgical_variant_selection (st : Store) (hasMcc hasCc : Bool)
    (pre : List String) (p : String) (rest : List String)
    (hpre : ∀ x ∈ pre, ((alookup st.procedure_codes x).map ProcedureCodeInfo.drgs).getD [] = [])
    (info : ProcedureCodeInfo) (hp : alookup st.procedure_codes p = some info)
    (base : String) (tl : List String) (hdrgs : info.drgs = base :: tl)
    (bdef : DRGDefinition) (hbase : alookup st.drg_definitions base = some bdef)
    (n : Nat) (hn : natDigits? base = some n) :
    assignSurgicalDrg st hasMcc hasCc (pre ++ p :: rest) =
      some (
        if (sContains (lowerS bdef.description) "with mcc" ||
            sContains (lowerS bdef.description) "without mcc" ||
            sContains (lowerS bdef.description) "without cc") = false then base
        else if hasMcc then base
        else if hasCc then
          (if descContains st.drg_definitions (zfill3 (n + 1)) "with cc" = true
           then zfill3 (n + 1) else base)
        else
          (if descContains st.drg_definitions (zfill3 (n + 2)) "without cc" = true
           then zfill3 (n + 2)
           else if (descContains st.drg_definitions (zfill3 (n + 1)) "without" ||
                    descContains st.drg_definitions (zfill3 (n + 1)) "with cc") = true
           then zfill3 (n + 1)
           else base)) := by
  induction pre with
  | cons x xs ih =>
    rw [List.cons_append, surg_skip st hasMcc hasCc x _ (hpre x (List.mem_cons_self _ _))]
    exact ih fun y hy => hpre y (List.mem_cons_of_mem _ hy)
  | nil =>
    rw [List.nil_append]
    simp only [assignSurgicalDrg, hp, hdrgs, hbase, hn, Option.getD_some]
    cases hv : (sContains (lowerS bdef.description) "with mcc" ||
        sContains (lowerS bdef.description) "without mcc" ||
        sContains (lowerS bdef.description) "without cc") with
    | false => simp [hv]
    | true =>
      simp only [hv, Bool.not_true, Bool.false_eq_true, if_false, if_true]
      cases hasMcc with
      | true => simp
      | false =>
        simp only [Bool.false_eq_true, if_false]
        cases hasCc with
        | true =>
          simp only [if_true]
          cases hcd : alookup st.drg_definitions (zfill3 (n + 1)) with
          | none => simp [descContains, hcd]
          | some cd => simp [descContains, hcd, apply_ite Option.some]
        | false =>
          simp only [Bool.false_eq_true, if_false]
          cases hnd : alookup st.drg_definitions (zfill3 (n + 2)) with
          | none =>
            cases hcd : alookup st.drg_definitions (zfill3 (n + 1)) with
            | none => simp [descContains, hcd, hnd]
            | some cd => simp [descContains, hcd, hnd, apply_ite Option.some]
          | some nd =>
            cases hcd : alookup st.drg_definitions (zfill3 (n + 1)) with
            | none => simp [descContains, hcd, hnd, apply_ite Option.some]
            | some cd => simp [descContains, hcd, hnd, apply_ite Option.some]

/-- Witness for C2: a CC-only encounter moves from base DRG 100 to the
`"with cc"` variant 101 in a concrete store. -/
theorem c2_surgical_variant_selection_witness :
    assignSurgicalDrg stW false true ["0SRC0J9"] = some "101" := by
  have h := c2_surgical_variant_selection stW false true [] "0SRC0J9" []
    (by simp)
    { code := "0SRC0J9", description := "Knee replacement",
      is_or_procedure := true, drgs := ["100"] }
    (by decide) "100" [] (by decide)
    { drg := "100", mdc := some "08", drg_type := DRGType.SURGICAL,
      description := "Joint procedure with MCC" }
    (by decide) 100 (by decide)
  exact h.trans (by decide)

/-- The medical loop skips a mapping whose MDC differs from the derived
one. -/
theorem medLoop_skip (st : Store) (mdc : Option String) (acp hm hc : Bool)
    (q : String × List String) (rest : List (String × List String))
    (h : ¬ (some q.1 = mdc)) :
    medLoop st mdc acp hm hc (q :: rest) = medLoop st mdc acp hm hc rest := by
  obtain ⟨mmdc, drgs⟩ := q
  simp only [medLoop]
  rw [if_neg h]

/-- The medical loop skips every leading mapping whose MDC differs. -/
theorem medLoop_skip_all (st : Store) (mdc : Option String) (acp hm hc : Bool)
    (pre : List (String × List String)) (hpre : ∀ q ∈ pre, ¬ (some q.1 = mdc))
    (l : List (String × List String)) :
    medLoop st mdc acp hm hc (pre ++ l) = medLoop st mdc acp hm hc l := by
  induction pre with
  | nil => rfl
  | cons q qs ih =>
    rw [List.cons_append, medLoop_skip st mdc acp hm hc q _ (hpre q (List.mem_cons_self _ _))]
    exact ih fun y hy => hpre y (List.mem_cons_of_mem _ hy)

/-- C3: on the medical path, the first mapping of the principal diagnosis
whose MDC equals the derived MDC decides the DRG: by severity slot for 3
or more DRGs, by `has_mcc or has_cc` for 2, and directly for 1; when the
candidate `drgs[0]` is a surgical DRG per Appendix A, the fallback table
`"173" -> ("175", "175", "176")` is applied instead, the MCC slot being
selected when an MCC is present or the PDX is an acute-cor-pulmonale
code. -/
theorem c3_medical_variant_selection (st : Store) (pdx : String) (mdc : Option String)
    (hasMcc hasCc : Bool)
    (di : DiagnosisInfo) (hdi : alookup st.diagnosis_mappings pdx = some di)
    (pre : List (String × List String)) (mmdc : String) (c0 : String) (tl : List String)
    (rest : List (String × List String))
    (hmaps : di.mdc_drg_mappings = pre ++ (mmdc, c0 :: tl) :: rest)
    (hpre : ∀ q ∈ pre, ¬ (some q.1 = mdc))
    (hmdc : some mmdc = mdc) :
    (((alookup st.drg_definitions c0).map DRGDefinition.is_surgical).getD false = false →
       assignMedicalDrg st pdx mdc hasMcc hasCc =
         some (match tl with
               | b :: c :: _ => if hasMcc then c0 else if hasCc then b else c
               | [b] => if hasMcc || hasCc then c0 else b
               | [] => c0))
    ∧ (((alookup st.drg_definitions c0).map DRGDefinition.is_surgical).getD false = true →
       c0 = "173" →
       assignMedicalDrg st pdx mdc hasMcc hasCc =
         some (if hasMcc || acuteCorPulmonale.contains pdx then "175"
               else if hasCc then "175" else "176")) := by
  have hmain : assignMedicalDrg st pdx mdc hasMcc hasCc =
      medLoop st mdc (acuteCorPulmonale.contains pdx) hasMcc hasCc ((mmdc, c0 :: tl) :: rest) := by
    simp only [assignMedicalDrg, hdi, hmaps]
    exact medLoop_skip_all st mdc _ hasMcc hasCc pre hpre _
  constructor
  · intro hns
    rw [hmain]
    cases hdd : alookup st.drg_definitions c0 with
    | none =>
      rcases tl with _ | ⟨b, _ | ⟨c, tl'⟩⟩ <;> simp [medLoop, hmdc, hdd]
    | some dd =>
      rw [hdd] at hns
      simp only [Option.map_some', Option.getD_some] at hns
      rcases tl with _ | ⟨b, _ | ⟨c, tl'⟩⟩ <;> simp [medLoop, hmdc, hdd, hns]
  · intro hs h173
    rw [hmain]
    cases hdd : alookup st.drg_definitions c0 with
    | none => rw [hdd] at hs; simp at hs
    | some dd =>
      rw [hdd] at hs
      simp only [Option.map_some', Option.getD_some] at hs
      subst h173
      simp [medLoop, hmdc, hdd, hs, surgicalToMedicalFallback, alookup]

/-- Witness for C3: MDC 04 pneumonia with an MCC selects the first DRG of
the triplet. -/
theorem c3_medical_variant_selection_witness :
    assignMedicalDrg stW "J189" (some "04") true false = some "193" := by
  have h := (c3_medical_variant_selection stW "J189" (some "04") true false
    { code := "J189", description := "Pneumonia, unspecified organism",
      mdc_drg_mappings := [("04", ["193", "194", "195"])] }
    (by decide) [] "04" "193" ["194", "195"] [] (by decide) (by simp) rfl).1 (by decide)
  exact h.trans (by decide)

/-- Any diagnosis recorded by the severity scan is a key of the CC/MCC
table (the accumulators start as `none`, and codes are only recorded
after a successful lookup). -/
theorem findCC_good (d : List (String × CCMCCInfo)) :
    ∀ (l : List String) (mccA ccA : Option String),
      (mccA = none ∨ ∃ x, mccA = some x ∧ (alookup d x).isSome = true) →
      (ccA = none ∨ ∃ x, ccA = some x ∧ (alookup d x).isSome = true) →
      ((findCCMCCAux d l mccA ccA).1 = none ∨
        ∃ x, (findCCMCCAux d l mccA ccA).1 = some x ∧ (alookup d x).isSome = true) ∧
      ((findCCMCCAux d l mccA ccA).2 = none ∨
        ∃ x, (findCCMCCAux d l mccA ccA).2 = some x ∧ (alookup d x).isSome = true) := by
  intro l
  induction l with
  | nil =>
    intro mccA ccA hM hC
    exact ⟨by simpa [findCCMCCAux] using hM, by simpa [findCCMCCAux] using hC⟩
  | cons dx rest ih =>
    intro mccA ccA hM hC
    cases hx : alookup d (canon dx) with
    | none =>
      have he : findCCMCCAux d (dx :: rest) mccA ccA =
          if truthy mccA = true then (mccA, ccA) else findCCMCCAux d rest mccA ccA := by
        simp [findCCMCCAux, hx]
      rw [he]
      by_cases ht : truthy mccA = true
      · rw [if_pos ht]; exact ⟨by simpa using hM, by simpa using hC⟩
      · rw [if_neg ht]; exact ih mccA ccA hM hC
    | some i =>
      have hkey : (alookup d (canon dx)).isSome = true := by rw [hx]; rfl
      by_cases h1 : i.level = CCLevel.MCC ∧ truthy mccA = false
      · have he : findCCMCCAux d (dx :: rest) mccA ccA =
            if truthy (some (canon dx)) = true then (some (canon dx), ccA)
            else findCCMCCAux d rest (some (canon dx)) ccA := by
          simp [findCCMCCAux, hx, h1]
        rw [he]
        by_cases ht : truthy (some (canon dx)) = true
        · rw [if_pos ht]
          exact ⟨Or.inr ⟨canon dx, rfl, hkey⟩, by simpa using hC⟩
        · rw [if_neg ht]
          exact ih _ _ (Or.inr ⟨canon dx, rfl, hkey⟩) hC
      · by_cases h2 : i.level = CCLevel.CC ∧ truthy ccA = false
        · have he : findCCMCCAux d (dx :: rest) mccA ccA =
              if truthy mccA = true then (mccA, some (canon dx))
              else findCCMCCAux d rest mccA (some (canon dx)) := by
            simp [findCCMCCAux, hx, h1, h2]
          rw [he]
          by_cases ht : truthy mccA = true
          · rw [if_pos ht]
            exact ⟨by simpa using hM, Or.inr ⟨canon dx, rfl, hkey⟩⟩
          · rw [if_neg ht]
            exact ih _ _ hM (Or.inr ⟨canon dx, rfl, hkey⟩)
        · have he : findCCMCCAux d (dx :: rest) mccA ccA =
              if truthy mccA = true then (mccA, ccA) else findCCMCCAux d rest mccA ccA := by
            simp [findCCMCCAux, hx, h1, h2]
          rw [he]
          by_cases ht : truthy mccA = true
          · rw [if_pos ht]; exact ⟨by simpa using hM, by simpa using hC⟩
          · rw [if_neg ht]; exact ih mccA ccA hM hC

/-- The discharge filter never invents an MCC: its first component comes
from its input. -/
theorem filter_fst_src (A : List String) (s : DischargeStatus) (m c : Option String)
    (x : String) (h : (dischargeFilter A s m c).1 = some x) : m = some x := by
  unfold dischargeFilter at h
  by_cases hs : s ≠ DischargeStatus.ALIVE
  · rw [if_pos hs] at h
    cases m with
    | none => simp [filterOne] at h
    | some v =>
      by_cases hc : v ≠ "" ∧ A.contains v = true
      · exfalso; simp only [filterOne, if_pos hc] at h; simp at h
      · simp only [filterOne, if_neg hc] at h; exact congrArg some (by injection h)
  · rw [if_neg hs] at h; exact h

/-- The discharge filter never invents a CC. -/
theorem filter_snd_src (A : List String) (s : DischargeStatus) (m c : Option String)
    (x : String) (h : (dischargeFilter A s m c).2.1 = some x) : c = some x := by
  unfold dischargeFilter at h
  by_cases hs : s ≠ DischargeStatus.ALIVE
  · rw [if_pos hs] at h
    cases c with
    | none => simp [filterOne] at h
    | some v =>
      by_cases hc : v ≠ "" ∧ A.contains v = true
      · exfalso; simp only [filterOne, if_pos hc] at h; simp at h
      · simp only [filterOne, if_neg hc] at h; exact congrArg some (by injection h)
  · rw [if_neg hs] at h; exact h

/-- A truthy MCC surviving the filter of a non-alive discharge is not in
the discharge-alive set. -/
theorem filter_fst_notin (A : List String) (s : DischargeStatus) (m c : Option String)
    (x : String) (hs : s ≠ DischargeStatus.ALIVE)
    (h : (dischargeFilter A s m c).1 = some x) : x = "" ∨ A.contains x = false := by
  have hm := filter_fst_src A s m c x h
  subst hm
  unfold dischargeFilter at h
  rw [if_pos hs] at h
  by_cases hc : x ≠ "" ∧ A.contains x = true
  · exfalso; simp only [filterOne, if_pos hc] at h; simp at h
  · rcases not_and_or.mp hc with hx | hx
    · exact Or.inl (not_not.mp hx)
    · exact Or.inr (Bool.not_eq_true _ ▸ hx)

/-- A truthy CC surviving the filter of a non-alive discharge is not in
the discharge-alive set. -/
theorem filter_snd_notin (A : List String) (s : DischargeStatus) (m c : Option String)
    (x : String) (hs : s ≠ DischargeStatus.ALIVE)
    (h : (dischargeFilter A s m c).2.1 = some x) : x = "" ∨ A.contains x = false := by
  have hm := filter_snd_src A s m c x h
  subst hm
  unfold dischargeFilter at h
  rw [if_pos hs] at h
  by_cases hc : x ≠ "" ∧ A.contains x = true
  · exfalso; simp only [filterOne, if_pos hc] at h; simp at h
  · rcases not_and_or.mp hc with hx | hx
    · exact Or.inl (not_not.mp hx)
    · exact Or.inr (Bool.not_eq_true _ ▸ hx)

/-- Every result of `group` either reports the recorded severity evidence
(with CC suppressed under a truthy MCC) or reports no evidence at all
(the sentinel results). -/
theorem group_fields (st : Store) (e : Encounter) :
    ((group st e).mcc_dx = (recordedSeverity st e).1 ∧
     (group st e).cc_dx = (if truthy (recordedSeverity st e).1 = true then none
                           else (recordedSeverity st e).2))
    ∨ ((group st e).mcc_dx = none ∧ (group st e).cc_dx = none) := by
  unfold group groupPath pathResult
  dsimp only []
  split
  · right; exact ⟨rfl, rfl⟩
  · split
    · split
      · left; exact ⟨rfl, rfl⟩
      · split
        · split
          · split
            · left; exact ⟨rfl, rfl⟩
            · right; exact ⟨rfl, rfl⟩
          · right; exact ⟨rfl, rfl⟩
        · split
          · split
            · left; exact ⟨rfl, rfl⟩
            · right; exact ⟨rfl, rfl⟩
          · right; exact ⟨rfl, rfl⟩
    · split
      · split
        · split
          · left; exact ⟨rfl, rfl⟩
          · right; exact ⟨rfl, rfl⟩
        · right; exact ⟨rfl, rfl⟩
      · split
        · split
          · left; exact ⟨rfl, rfl⟩
          · right; exact ⟨rfl, rfl⟩
        · right; exact ⟨rfl, rfl⟩

/-- C7: for every encounter and loaded store (whose CC/MCC keys are
non-empty, as the Appendix C parser guarantees), the result never has
both `mcc_dx` and `cc_dx` populated: a present MCC suppresses the CC. -/
theorem c7_mcc_suppresses_cc (st : Store) (e : Encounter) (hWF : ccKeysNE st)
    (h : (group st e).mcc_dx.isSome = true) : (group st e).cc_dx = none := by
  rcases group_fields st e with ⟨h1, h2⟩ | ⟨h1, h2⟩
  · rw [h1] at h
    obtain ⟨x, hx⟩ := Option.isSome_iff_exists.mp h
    have hsrc : (findCCMCCAux st.cc_mcc e.secondary_dx none none).1 = some x :=
      filter_fst_src st.discharge_alive e.discharge_status
        (findCCMCCAux st.cc_mcc e.secondary_dx none none).1
        (findCCMCCAux st.cc_mcc e.secondary_dx none none).2 x hx
    rcases (findCC_good st.cc_mcc e.secondary_dx none none (Or.inl rfl) (Or.inl rfl)).1 with
      hnone | ⟨y, hy, hk⟩
    · rw [hsrc] at hnone; cases hnone
    · rw [hsrc] at hy
      obtain rfl : x = y := by injection hy
      obtain ⟨i, hi⟩ := Option.isSome_iff_exists.mp hk
      have hne : x ≠ "" := hWF (x, i) (alookup_mem hi)
      rw [hx] at h2
      rw [h2]
      simp [truthy, hne]
  · rw [h1] at h; simp at h

/-- Witness for C7: an encounter whose result records an MCC has no CC in
its result. -/
theorem c7_mcc_suppresses_cc_witness :
    (group stW { principal_dx := "J189", secondary_dx := ["E1100"] }).cc_dx = none :=
  c7_mcc_suppresses_cc stW { principal_dx := "J189", secondary_dx := ["E1100"] }
    (by unfold ccKeysNE; decide) (by decide)

/-- C6: when the discharge status is not ALIVE, each recorded code lying
in the discharge-alive set is cleared with a note, a cleared MCC does not
promote the CC (the CC outcome is independent of the MCC outcome), no
discharge-alive-set code ever reaches the final result, and when the
status is ALIVE the filter changes nothing. -/
theorem c6_discharge_alive_filter (st : Store) (e : Encounter) (hWF : ccKeysNE st) :
    (e.discharge_status ≠ DischargeStatus.ALIVE →
       (∀ c, (group st e).mcc_dx = some c → st.discharge_alive.contains c = false)
     ∧ (∀ c, (group st e).cc_dx = some c → st.discharge_alive.contains c = false)
     ∧ (∀ mcc cc : Option String,
          (dischargeFilter st.discharge_alive e.discharge_status mcc cc).1
            = (if (truthy mcc && st.discharge_alive.contains (mcc.getD "")) = true
               then none else mcc)
        ∧ (dischargeFilter st.discharge_alive e.discharge_status mcc cc).2.1
            = (if (truthy cc && st.discharge_alive.contains (cc.getD "")) = true
               then none else cc)
        ∧ (dischargeFilter st.discharge_alive e.discharge_status mcc cc).2.2
            = (if (truthy mcc && st.discharge_alive.contains (mcc.getD "")) = true
               then ["MCC " ++ mcc.getD "" ++ " excluded (patient not discharged alive)"]
               else [])
              ++ (if (truthy cc && st.discharge_alive.contains (cc.getD "")) = true
                  then ["CC " ++ cc.getD "" ++ " excluded (patient not discharged alive)"]
                  else [])))
    ∧ (e.discharge_status = DischargeStatus.ALIVE →
       ∀ mcc cc : Option String,
         dischargeFilter st.discharge_alive e.discharge_status mcc cc = (mcc, cc, [])) := by
  constructor
  · intro hs
    refine ⟨?_, ?_, ?_⟩
    · intro c hc
      rcases group_fields st e with ⟨h1, _⟩ | ⟨h1, _⟩
      · rw [h1] at hc
        have hsrc : (findCCMCCAux st.cc_mcc e.secondary_dx none none).1 = some c :=
          filter_fst_src st.discharge_alive e.discharge_status _ _ c hc
        rcases (findCC_good st.cc_mcc e.secondary_dx none none (Or.inl rfl) (Or.inl rfl)).1 with
          hnone | ⟨y, hy, hk⟩
        · rw [hsrc] at hnone; cases hnone
        · rw [hsrc] at hy
          obtain rfl : c = y := by injection hy
          obtain ⟨i, hi⟩ := Option.isSome_iff_exists.mp hk
          have hne : c ≠ "" := hWF (c, i) (alookup_mem hi)
          rcases filter_fst_notin st.discharge_alive e.discharge_status _ _ c hs hc with
            he | hno
          · exact absurd he hne
          · exact hno
      · rw [h1] at hc; cases hc
    · intro c hc
      rcases group_fields st e with ⟨_, h2⟩ | ⟨_, h2⟩
      · rw [h2] at hc
        by_cases ht : truthy (recordedSeverity st e).1 = true
        · rw [if_pos ht] at hc; cases hc
        · rw [if_neg ht] at hc
          have hsrc : (findCCMCCAux st.cc_mcc e.secondary_dx none none).2 = some c :=
            filter_snd_src st.discharge_alive e.discharge_status _ _ c hc
          rcases (findCC_good st.cc_mcc e.secondary_dx none none (Or.inl rfl) (Or.inl rfl)).2 with
            hnone | ⟨y, hy, hk⟩
          · rw [hsrc] at hnone; cases hnone
          · rw [hsrc] at hy
            obtain rfl : c = y := by injection hy
            obtain ⟨i, hi⟩ := Option.isSome_iff_exists.mp hk
            have hne : c ≠ "" := hWF (c, i) (alookup_mem hi)
            rcases filter_snd_notin st.discharge_alive e.discharge_status _ _ c hs hc with
              he | hno
            · exact absurd he hne
            · exact hno
      · rw [h2] at hc; cases hc
    · intro mcc cc
      refine ⟨?_, ?_, ?_⟩ <;>
        · unfold dischargeFilter
          rw [if_pos hs]
          cases mcc with
          | none => cases cc with
            | none => simp [filterOne, truthy]
            | some v =>
              by_cases hv : v = "" <;> by_cases hin : v ∈ st.discharge_alive <;>
                simp [filterOne, truthy, hv, hin]
          | some u => cases cc with
            | none =>
              by_cases hu : u = "" <;> by_cases huin : u ∈ st.discharge_alive <;>
                simp [filterOne, truthy, hu, huin]
            | some v =>
              by_cases hu : u = "" <;> by_cases huin : u ∈ st.discharge_alive <;>
              by_cases hv : v = "" <;> by_cases hin : v ∈ st.discharge_alive <;>
                simp [filterOne, truthy, hu, huin, hv, hin]
  · intro hs mcc cc
    unfold dischargeFilter
    rw [if_neg (by simp [hs])]

/-- Witness for C6: with an expired patient, the discharge-alive MCC
`I462` is cleared with the explanatory note and nothing is promoted. -/
theorem c6_discharge_alive_filter_witness :
    dischargeFilter stW.discharge_alive DischargeStatus.EXPIRED (some "I462") none =
      (none, none, ["MCC I462 excluded (patient not discharged alive)"]) := by
  have H := (c6_discharge_alive_filter stW
      { principal_dx := "J189", secondary_dx := ["I462"],
        discharge_status := DischargeStatus.EXPIRED }
      (by unfold ccKeysNE; decide)).1 (by decide)
  have h := H.2.2 (some "I462") none
  exact Prod.ext (h.1.trans (by decide)) (Prod.ext (h.2.1.trans (by decide)) (h.2.2.trans (by decide)))

/-- The Pre-MDC scan returns the pair of the first matching procedure. -/
theorem checkPreMdc_split (pre : List String) (p : String) (rest : List String)
    (pr : String × String) (b : Bool)
    (hpre : ∀ x ∈ pre, alookup preMdcTable (canon x) = none)
    (hp : alookup preMdcTable (canon p) = some pr) :
    checkPreMdc (pre ++ p :: rest) b = some (if b then pr.1 else pr.2) := by
  induction pre with
  | nil => simp [checkPreMdc, hp]
  | cons x xs ih =>
    rw [List.cons_append]
    have hx := hpre x (List.mem_cons_self _ _)
    simp only [checkPreMdc, hx]
    exact ih fun y hy => hpre y (List.mem_cons_of_mem _ hy)

/-- Every DRG pair of the Pre-MDC table has non-empty components. -/
theorem preMdcTable_vals : ∀ q ∈ preMdcTable, q.2.1 ≠ "" ∧ q.2.2 ≠ "" := by decide

/-- C4: a procedure of the Pre-MDC table short-circuits the OR/medical
branch: the first matching procedure's pair decides the DRG by the
post-filter MCC, `mdc` is absent, the description comes from Appendix A
(`"Pre-MDC"` when absent), CC evidence is suppressed under a truthy MCC,
no surgical procedure is reported, and the Pre-MDC note is appended
last. -/
theorem c4_pre_mdc_short_circuit (st : Store) (e : Encounter)
    (di : DiagnosisInfo) (hpdx : alookup st.diagnosis_mappings e.principal_dx = some di)
    (pre : List String) (p : String) (rest : List String)
    (hsplit : e.procedures = pre ++ p :: rest)
    (hpre : ∀ x ∈ pre, alookup preMdcTable (canon x) = none)
    (pr : String × String) (hp : alookup preMdcTable (canon p) = some pr) :
    (group st e).drg = (if (recordedSeverity st e).1.isSome then pr.1 else pr.2) ∧
    (group st e).mdc = none ∧
    (group st e).description =
      (match alookup st.drg_definitions
          (if (recordedSeverity st e).1.isSome then pr.1 else pr.2) with
       | some dd => dd.description
       | none => "Pre-MDC") ∧
    (group st e).mcc_dx = (recordedSeverity st e).1 ∧
    (group st e).cc_dx = (if truthy (recordedSeverity st e).1 = true then none
                          else (recordedSeverity st e).2) ∧
    (group st e).surgical_procedure = none ∧
    (group st e).grouping_notes.getLast? = some "Assigned via Pre-MDC logic" := by
  have hck : checkPreMdc e.procedures (recordedSeverity st e).1.isSome
      = some (if (recordedSeverity st e).1.isSome then pr.1 else pr.2) := by
    rw [hsplit]
    exact checkPreMdc_split pre p rest pr _ hpre hp
  have hv := preMdcTable_vals _ (alookup_mem hp)
  have hne : (if (recordedSeverity st e).1.isSome then pr.1 else pr.2) ≠ "" := by
    cases hb : (recordedSeverity st e).1.isSome <;> simp [hv.1, hv.2]
  unfold group
  simp only [hpdx, hck]
  rw [if_pos hne]
  refine ⟨rfl, rfl, rfl, rfl, rfl, rfl, ?_⟩
  exact getLast?_append_one _ _

/-- Witness for C4: a heart-transplant procedure with no MCC yields DRG
002 via the Pre-MDC path. -/
theorem c4_pre_mdc_short_circuit_witness :
    (group stW { principal_dx := "Z941", procedures := ["02YA0Z0"] }).drg = "002" ∧
    (group stW { principal_dx := "Z941", procedures := ["02YA0Z0"] }).mdc = none ∧
    (group stW { principal_dx := "Z941", procedures := ["02YA0Z0"] }).grouping_notes.getLast?
      = some "Assigned via Pre-MDC logic" := by
  have h := c4_pre_mdc_short_circuit stW
    { principal_dx := "Z941", procedures := ["02YA0Z0"] }
    { code := "Z941", description := "Heart transplant status",
      mdc_drg_mappings := [("05", ["302"])] }
    (by decide) [] "02YA0Z0" [] rfl (by simp) ("001", "002") (by decide)
  exact ⟨h.1.trans (by decide), h.2.1, h.2.2.2.2.2.2⟩

/-- Every DRG returned by the surgical assignment is a key of the DRG
catalogue (each return site is guarded by a successful lookup). -/
theorem surg_cat (st : Store) (hm hc : Bool) :
    ∀ (l : List String) (d : String), assignSurgicalDrg st hm hc l = some d →
      (alookup st.drg_definitions d).isSome = true := by
  intro l
  induction l with
  | nil => intro d h; simp [assignSurgicalDrg] at h
  | cons p rest ih =>
    intro d h
    cases hp : alookup st.procedure_codes p with
    | none =>
      simp only [assignSurgicalDrg, hp] at h
      exact ih d h
    | some info =>
      cases hd : info.drgs with
      | nil =>
        simp only [assignSurgicalDrg, hp, hd] at h
        exact ih d h
      | cons base tl =>
        cases hb : alookup st.drg_definitions base with
        | none =>
          simp only [assignSurgicalDrg, hp, hd, hb] at h
          exact ih d h
        | some bdef =>
          simp only [assignSurgicalDrg, hp, hd, hb] at h
          repeat' first
            | exact ih d h
            | (obtain rfl := Option.some.inj h; simp_all)
            | split at h

/-- Every Pre-MDC DRG comes from a pair of the Pre-MDC table. -/
theorem checkPreMdc_src : ∀ (procs : List String) (b : Bool) (d : String),
    checkPreMdc procs b = some d →
      ∃ k pr, alookup preMdcTable k = some pr ∧ (d = pr.1 ∨ d = pr.2) := by
  intro procs
  induction procs with
  | nil => intro b d h; simp [checkPreMdc] at h
  | cons p rest ih =>
    intro b d h
    cases hp : alookup preMdcTable (canon p) with
    | none =>
      simp only [checkPreMdc, hp] at h
      exact ih b d h
    | some pr =>
      simp only [checkPreMdc, hp] at h
      obtain rfl := Option.some.inj h
      refine ⟨canon p, pr, hp, ?_⟩
      cases b <;> simp

/-- Every DRG returned by the medical loop comes from a DRG list of the
mappings or from the surgical-to-medical fallback table. -/
theorem med_src (st : Store) (mdc : Option String) (acp hm hc : Bool) :
    ∀ (maps : List (String × List String)) (d : String),
      medLoop st mdc acp hm hc maps = some d →
        (∃ q ∈ maps, d ∈ q.2) ∨ d = "175" ∨ d = "176" := by
  intro maps
  induction maps with
  | nil => intro d h; simp [medLoop] at h
  | cons q rest ih =>
    intro d h
    obtain ⟨mmdc, drgs⟩ := q
    have wrap : ∀ (x : String) (q0 : String × List String),
        ((∃ q' ∈ rest, x ∈ q'.2) ∨ x = "175" ∨ x = "176") →
        ((∃ q' ∈ q0 :: rest, x ∈ q'.2) ∨ x = "175" ∨ x = "176") := by
      rintro x q0 (⟨q', hq', hx⟩ | hx)
      · exact Or.inl ⟨q', List.mem_cons_of_mem _ hq', hx⟩
      · exact Or.inr hx
    by_cases hm1 : some mmdc = mdc
    · rcases drgs with _ | ⟨c0, tl⟩
      · simp only [medLoop, if_pos hm1] at h
        exact wrap d _ (ih d h)
      · simp only [medLoop, if_pos hm1] at h
        split at h
        · cases hfb : alookup surgicalToMedicalFallback c0 with
          | none =>
            rw [hfb] at h
            exact wrap d _ (ih d h)
          | some f =>
            rw [hfb] at h
            have hf : f = ("175", "175", "176") :=
              congrArg Prod.snd (List.mem_singleton.mp (alookup_mem hfb))
            subst hf
            obtain rfl := Option.some.inj h
            right
            by_cases h1 : (hm || acp) = true
            · simp [h1]
            · by_cases h2 : hc = true <;> simp [h1, h2]
        · rcases tl with _ | ⟨b, _ | ⟨c, tl'⟩⟩
          · obtain rfl := Option.some.inj h
            exact Or.inl ⟨(mmdc, [c0]), List.mem_cons_self _ _, by simp⟩
          · obtain rfl := Option.some.inj h
            refine Or.inl ⟨(mmdc, [c0, b]), List.mem_cons_self _ _, ?_⟩
            by_cases h1 : (hm || hc) = true <;> simp [h1]
          · obtain rfl := Option.some.inj h
            refine Or.inl ⟨(mmdc, c0 :: b :: c :: tl'), List.mem_cons_self _ _, ?_⟩
            by_cases h1 : hm = true
            · simp [h1]
            · by_cases h2 : hc = true <;> simp [h1, h2]
    · rw [medLoop_skip st mdc acp hm hc (mmdc, drgs) rest hm1] at h
      exact wrap d _ (ih d h)

/-- The OR/medical branch yields `"999"` or a catalogued DRG, given that
Appendix B DRG lists and the fallback targets are catalogued. -/
theorem groupPath_cat (st : Store) (e : Encounter) (mdc : Option String)
    (mcc cc : Option String) (notes : List String)
    (hB : ∀ q ∈ st.diagnosis_mappings, ∀ mp ∈ q.2.mdc_drg_mappings, ∀ d ∈ mp.2,
        (alookup st.drg_definitions d).isSome = true)
    (hFb : (alookup st.drg_definitions "175").isSome = true ∧
        (alookup st.drg_definitions "176").isSome = true) :
    (groupPath st e mdc mcc cc notes).drg = "999" ∨
      (alookup st.drg_definitions (groupPath st e mdc mcc cc notes).drg).isSome = true := by
  unfold groupPath
  by_cases ho : findORProcedures st.procedure_codes e.procedures ≠ []
  · rw [if_pos ho]
    cases ha : assignSurgicalDrg st mcc.isSome cc.isSome
        (findORProcedures st.procedure_codes e.procedures) with
    | none => left; rfl
    | some d =>
      by_cases hd : d ≠ ""
      · right
        have hcat := surg_cat st mcc.isSome cc.isSome _ d ha
        simpa [pathResult, hd] using hcat
      · left
        simp [pathResult, hd]
  · rw [if_neg ho]
    cases ha : assignMedicalDrg st e.principal_dx mdc mcc.isSome cc.isSome with
    | none => left; rfl
    | some d =>
      by_cases hd : d ≠ ""
      · right
        unfold assignMedicalDrg at ha
        cases hdi : alookup st.diagnosis_mappings e.principal_dx with
        | none => rw [hdi] at ha; cases ha
        | some di =>
          rw [hdi] at ha
          rcases med_src st mdc _ mcc.isSome cc.isSome di.mdc_drg_mappings d ha with
            ⟨q', hq', hdq⟩ | rfl | rfl
          · have hcat := hB (e.principal_dx, di) (alookup_mem hdi) q' hq' d hdq
            simpa [pathResult, hd] using hcat
          · simpa [pathResult, hd] using hFb.1
          · simpa [pathResult, hd] using hFb.2
      · left
        simp [pathResult, hd]

/-- C8 fails as stated: the parsers never check Appendix B's DRG ranges
against Appendix A, so a loaded store can map a diagnosis to a DRG that
the catalogue lacks, and `group` then returns that DRG even though it is
neither `"999"` nor catalogued. -/
theorem c8_catalogue_counterexample :
    (group stBad { principal_dx := "A000" }).drg = "373" ∧
    (group stBad { principal_dx := "A000" }).drg ≠ "999" ∧
    alookup stBad.drg_definitions (group stBad { principal_dx := "A000" }).drg = none := by
  refine ⟨by decide, by decide, by decide⟩

/-- C8 amended: for every encounter, and every store in which all DRGs of
the diagnosis table's mappings, of the Pre-MDC table, and of the
surgical-to-medical fallback table are catalogue keys, the result's `drg`
is either `"999"` or a key of the DRG catalogue. -/
theorem c8_catalogue_amended (st : Store) (e : Encounter)
    (hB : ∀ q ∈ st.diagnosis_mappings, ∀ mp ∈ q.2.mdc_drg_mappings, ∀ d ∈ mp.2,
        (alookup st.drg_definitions d).isSome = true)
    (hPre : ∀ q ∈ preMdcTable, (alookup st.drg_definitions q.2.1).isSome = true ∧
        (alookup st.drg_definitions q.2.2).isSome = true)
    (hFb : (alookup st.drg_definitions "175").isSome = true ∧
        (alookup st.drg_definitions "176").isSome = true) :
    (group st e).drg = "999" ∨
      (alookup st.drg_definitions (group st e).drg).isSome = true := by
  unfold group
  cases hpdx : alookup st.diagnosis_mappings e.principal_dx with
  | none => left; rfl
  | some di =>
    simp only []
    split
    · rename_i pre heq
      by_cases hpe : pre ≠ ""
      · rw [if_pos hpe]
        right
        obtain ⟨k, pr, hk, hor⟩ := checkPreMdc_src e.procedures _ pre heq
        have hp := hPre (k, pr) (alookup_mem hk)
        rcases hor with rfl | rfl
        · exact hp.1
        · exact hp.2
      · rw [if_neg hpe]
        exact groupPath_cat st e _ _ _ _ hB hFb
    · exact groupPath_cat st e _ _ _ _ hB hFb

/-- Witness for the amended C8 at a coherent concrete store. -/
theorem c8_catalogue_amended_witness :
    (group stC8 { principal_dx := "J189", secondary_dx := ["E1100"] }).drg = "999" ∨
      (alookup stC8.drg_definitions
        (group stC8 { principal_dx := "J189", secondary_dx := ["E1100"] }).drg).isSome = true :=
  c8_catalogue_amended stC8 { principal_dx := "J189", secondary_dx := ["E1100"] }
    (by decide) (by decide) (by decide)

theorem zfillInt_ofNat (n : Nat) : zfillInt (Int.ofNat n) = zfill3 n := by
  unfold zfillInt
  rw [if_neg (not_lt.mpr (show (0 : Int) ≤ Int.ofNat n from Int.ofNat_nonneg n))]
  rfl

theorem pyInt?_digits (s : String) (hne : s.data ≠ []) (hdig : s.data.all Char.isDigit = true) :
    pyInt? s = some (Int.ofNat (digitsVal s.data)) := by
  obtain ⟨l⟩ := s
  cases l with
  | nil => exact absurd rfl hne
  | cons c t =>
    have hc : c.isDigit = true := List.all_eq_true.mp hdig c (List.mem_cons_self _ _)
    unfold pyInt?
    split
    · rename_i rest heq
      have : c = '+' := by injection heq
      rw [this] at hc
      exact absurd hc (by decide)
    · rename_i rest heq
      have : c = '-' := by injection heq
      rw [this] at hc
      exact absurd hc (by decide)
    · simp [natValL, hdig]

theorem pyInt?_none (s : String)
    (hhead : ∀ c, s.data.head? = some c → c ≠ '+' ∧ c ≠ '-')
    (hnd : ¬ (s.data ≠ [] ∧ s.data.all Char.isDigit = true)) :
    pyInt? s = none := by
  obtain ⟨l⟩ := s
  cases l with
  | nil => rfl
  | cons c t =>
    obtain ⟨hcp, hcm⟩ := hhead c rfl
    have hall : (c :: t).all Char.isDigit = false := by
      cases hall : (c :: t).all Char.isDigit
      · rfl
      · exact absurd ⟨List.cons_ne_nil c t, hall⟩ hnd
    unfold pyInt?
    split
    · rename_i rest heq
      exact absurd (by injection heq) hcp
    · rename_i rest heq
      exact absurd (by injection heq) hcm
    · simp [natValL, hall]

theorem splitFirst_none_not_mem (c : Char) : ∀ (l : List Char), splitFirst c l = none → c ∉ l := by
  intro l
  induction l with
  | nil => intro _ h; exact List.not_mem_nil c h
  | cons x t ih =>
    intro h hm
    simp only [splitFirst] at h
    by_cases hx : (x == c) = true
    · rw [if_pos hx] at h; cases h
    · rw [if_neg hx] at h
      rcases List.mem_cons.mp hm with rfl | hm'
      · exact hx (beq_self_eq_true c)
      · cases hs : splitFirst c t with
        | none => exact ih hs hm'
        | some q => rw [hs] at h; cases h

theorem splitFirst_eq_none (c : Char) (l : List Char) (h : c ∉ l) : splitFirst c l = none := by
  induction l with
  | nil => rfl
  | cons x t ih =>
    have hxc : (x == c) = false := by
      cases hb : (x == c)
      · rfl
      · exact absurd (eq_of_beq hb ▸ List.mem_cons_self x t) h
    simp only [splitFirst, hxc, Bool.false_eq_true, if_false]
    rw [ih fun hc => h (List.mem_cons_of_mem _ hc)]
    rfl

theorem splitFirst_spec (c : Char) : ∀ (l a b : List Char),
    splitFirst c l = some (a, b) → l = a ++ c :: b ∧ c ∉ a := by
  intro l
  induction l with
  | nil => intro a b h; cases h
  | cons x t ih =>
    intro a b h
    simp only [splitFirst] at h
    by_cases hx : (x == c) = true
    · rw [if_pos hx] at h
      have hab : ([], t) = ((a, b) : List Char × List Char) := by injection h
      obtain ⟨ha, hb⟩ := Prod.mk.injEq _ _ _ _ ▸ hab
      subst ha; subst hb
      exact ⟨by rw [eq_of_beq hx]; rfl, List.not_mem_nil c⟩
    · rw [if_neg hx] at h
      cases hs : splitFirst c t with
      | none => rw [hs] at h; cases h
      | some q =>
        obtain ⟨a', b'⟩ := q
        rw [hs] at h
        simp only [Option.map_some'] at h
        have hab : (x :: a', b') = ((a, b) : List Char × List Char) := by injection h
        obtain ⟨ha, hb⟩ := Prod.mk.injEq _ _ _ _ ▸ hab
        subst ha; subst hb
        obtain ⟨hl, hna⟩ := ih a' b' hs
        refine ⟨by rw [hl]; rfl, ?_⟩
        intro hc
        rcases List.mem_cons.mp hc with rfl | hc'
        · exact hx (beq_self_eq_true c)
        · exact hna hc'

theorem hasDD_cons (x : Char) (l : List Char) (h : hasDD l = true) : hasDD (x :: l) = true := by
  cases l with
  | nil => simp [hasDD] at h
  | cons y rest => simp [hasDD, h]

theorem hasDD_append (a b : List Char) : hasDD (a ++ '-' :: '-' :: b) = true := by
  induction a with
  | nil => simp [hasDD]
  | cons x t ih => exact hasDD_cons x _ ih

theorem isEmpty_false_of_ne {l : List Char} (h : l ≠ []) : l.isEmpty = false := by
  cases l with
  | nil => exact absurd rfl h
  | cons x t => rfl

theorem isNNN_mk_true (l : List Char) (h1 : l ≠ []) (h2 : l.all Char.isDigit = true) :
    isNNN (String.mk l) = true := by
  simp [isNNN, isEmpty_false_of_ne h1, h2]

theorem isNNN_mk_false (l : List Char) (h : ¬ (l ≠ [] ∧ l.all Char.isDigit = true)) :
    isNNN (String.mk l) = false := by
  rcases not_and_or.mp h with h1 | h2
  · obtain rfl : l = [] := not_not.mp h1
    rfl
  · have h2' : l.all Char.isDigit = false := by
      cases hb : l.all Char.isDigit
      · rfl
      · exact absurd hb h2
    simp [isNNN, h2']

theorem charIn_true {c : Char} {s : String} (h : c ∈ s.data) : charIn c s = true := by
  simpa [charIn] using h

theorem charIn_false {c : Char} {s : String} (h : c ∉ s.data) : charIn c s = false := by
  simpa [charIn] using h

theorem intRange_ofNat (va vb : Nat) :
    (intRange (Int.ofNat va) (Int.ofNat vb)).map zfillInt =
      (List.range (vb + 1 - va)).map (fun k => zfill3 (va + k)) := by
  unfold intRange
  rw [List.map_map]
  have hn : (Int.ofNat vb + 1 - Int.ofNat va).toNat = vb + 1 - va := by
    rw [Int.ofNat_eq_natCast, Int.ofNat_eq_natCast]
    omega
  rw [hn]
  apply List.map_congr_left
  intro k _
  show zfillInt (Int.ofNat va + Int.ofNat k) = zfill3 (va + k)
  rw [show Int.ofNat va + Int.ofNat k = Int.ofNat (va + k) from (Int.ofNat_add va k).symm]
  exact zfillInt_ofNat (va + k)

/-- One comma-part behaves as the specification describes, for parts
without a `'+'` sign and without consecutive dashes. -/
theorem expandPart_spec (p : String) (hne : p.data ≠ [])
    (hplus : '+' ∉ p.data) (hdd : hasDD p.data = false) :
    expandPart p = specPart p := by
  obtain ⟨l⟩ := p
  by_cases hdash : '-' ∈ l
  · have hci : charIn '-' (String.mk l) = true := charIn_true hdash
    cases hsp : splitFirst '-' l with
    | none => exact absurd hdash (splitFirst_none_not_mem '-' l hsp)
    | some q =>
      obtain ⟨a, b⟩ := q
      obtain ⟨hl, hna⟩ := splitFirst_spec '-' l a b hsp
      have hnp : isNNN (String.mk l) = false := by
        apply isNNN_mk_false
        rintro ⟨-, hall⟩
        exact absurd (List.all_eq_true.mp hall '-' hdash) (by decide)
      have hLHS : expandPart (String.mk l) =
          (match pyInt? (String.mk a), pyInt? (String.mk b) with
           | some s, some e => (intRange s e).map zfillInt
           | _, _ => [String.mk l]) := by
        simp only [expandPart, hci, if_true, hsp]
      have hRHS : specPart (String.mk l) =
          (if isNNN (String.mk a) && isNNN (String.mk b) then
            (List.range (digitsVal b + 1 - digitsVal a)).map (fun k => zfill3 (digitsVal a + k))
          else [String.mk l]) := by
        simp only [specPart, hnp, Bool.false_eq_true, if_false, hsp]
      rw [hLHS, hRHS]
      have hplusa : '+' ∉ a := fun hc => hplus (hl ▸ List.mem_append_left _ hc)
      have hplusb : '+' ∉ b := fun hc =>
        hplus (hl ▸ List.mem_append_right _ (List.mem_cons_of_mem _ hc))
      have hbhead : ∀ c0, b.head? = some c0 → c0 ≠ '-' := by
        intro c0 hc0 he
        cases b with
        | nil => cases hc0
        | cons x bs =>
          obtain rfl : x = c0 := by injection hc0
          subst he
          rw [hl, hasDD_append a bs] at hdd
          cases hdd
      by_cases hda : a ≠ [] ∧ a.all Char.isDigit = true
      · by_cases hdb : b ≠ [] ∧ b.all Char.isDigit = true
        · rw [pyInt?_digits (String.mk a) hda.1 hda.2, pyInt?_digits (String.mk b) hdb.1 hdb.2,
            isNNN_mk_true a hda.1 hda.2, isNNN_mk_true b hdb.1 hdb.2]
          simp only [Bool.and_self, if_true]
          exact intRange_ofNat (digitsVal a) (digitsVal b)
        · have hpb : pyInt? (String.mk b) = none := by
            apply pyInt?_none
            · intro c0 hc0
              exact ⟨fun he => hplusb (he ▸ List.mem_of_mem_head? (Option.mem_def.mpr hc0)),
                hbhead c0 hc0⟩
            · exact hdb
          rw [hpb, isNNN_mk_false b hdb]
          cases pyInt? (String.mk a) <;> simp
      · have hpa : pyInt? (String.mk a) = none := by
          apply pyInt?_none
          · intro c0 hc0
            refine ⟨fun he => hplusa (he ▸ List.mem_of_mem_head? (Option.mem_def.mpr hc0)), ?_⟩
            exact fun he => hna (he ▸ List.mem_of_mem_head? (Option.mem_def.mpr hc0))
          · exact hda
        rw [hpa, isNNN_mk_false a hda]
        simp
  · have hci : charIn '-' (String.mk l) = false := charIn_false hdash
    have hsp : splitFirst '-' l = none := splitFirst_eq_none '-' l hdash
    by_cases hdig : l.all Char.isDigit = true
    · have hNNN : isNNN (String.mk l) = true := isNNN_mk_true l hne hdig
      simp only [expandPart, hci, Bool.false_eq_true, if_false,
        pyInt?_digits (String.mk l) hne hdig, specPart, hNNN, if_true, zfillInt_ofNat]
    · have hh : ∀ c, l.head? = some c → c ≠ '+' ∧ c ≠ '-' := by
        intro c hc
        refine ⟨fun he => hplus (he ▸ List.mem_of_mem_head? (Option.mem_def.mpr hc)), ?_⟩
        exact fun he => hdash (he ▸ List.mem_of_mem_head? (Option.mem_def.mpr hc))
      have hpn : pyInt? (String.mk l) = none :=
        pyInt?_none (String.mk l) hh (fun hx => hdig hx.2)
      have hNNNf : isNNN (String.mk l) = false := isNNN_mk_false l (fun hx => hdig hx.2)
      simp only [expandPart, hci, Bool.false_eq_true, if_false, hpn, specPart, hNNNf, hsp,
        isEmpty_false_of_ne hne]

/-- C9: for a whitespace-stripped token, the range expander returns the
ordered concatenation of each comma-part's expansion: numeric singletons
3-digit zero-padded, inclusive ranges ascending and zero-padded, order
and duplicates preserved, and non-numeric parts passed through as-is
(parts are sign-free and have no consecutive dashes, as the claimed
`NNN`/`NNN-NNN` format guarantees). -/
theorem c9_range_expansion (tok : String)
    (h : ∀ p ∈ splitComma (dropSpaces tok),
        p.data ≠ [] ∧ '+' ∉ p.data ∧ hasDD p.data = false) :
    expandDrgRange tok = (splitComma (dropSpaces tok)).flatMap specPart := by
  unfold expandDrgRange
  revert h
  generalize splitComma (dropSpaces tok) = parts
  intro h
  induction parts with
  | nil => rfl
  | cons p ps ih =>
    have hp := h p (List.mem_cons_self _ _)
    rw [List.flatMap_cons, List.flatMap_cons,
      expandPart_spec p hp.1 hp.2.1 hp.2.2,
      ih fun q hq => h q (List.mem_cons_of_mem _ hq)]

/-- Witness for C9: a token with a range, a singleton and an alphanumeric
pass-through part. -/
theorem c9_range_expansion_witness :
    expandDrgRange "371-373, 800,x1" = ["371", "372", "373", "800", "x1"] := by
  have h := c9_range_expansion "371-373, 800,x1" (by decide)
  exact h.trans (by decide)

/-- C10 fails as stated: a combination `and` line re-registers its code
unconditionally, so a code first seen on a regular line under DRG 001 and
later on an `and` line under DRG 002 ends with the `and` line's
description and `drgs = ["002"]`, not with its first description and an
appended DRG list. -/
theorem c10_registration_counterexample :
    (alookup (parseMdcLines cexLines).procedure_codes "ABCDEF1").map
        (fun i => (i.description, i.drgs)) = some ("second description", ["002"]) ∧
      (("second description", ["002"]) : String × List String) ≠
        ("first description", ["001", "002"]) := by
  exact ⟨by decide, by decide⟩

/-- C10 amended: in an OR or non-OR section (on a line that is neither a
DRG header nor a section header), a regular procedure line whose code is
already registered leaves the entry's description and flags unchanged and
only appends the current DRG, making the code the pending anchor; a
combination `and` line with a registered pending anchor marks the anchor
`requires_combination`, appends the partner code to its combination list,
and re-registers the partner itself with a fresh entry whose `drgs` list
is exactly the current DRG — overwriting any existing entry for it. -/
theorem c10_registration_amended :
    (∀ (st : MDCState) (line code rawDesc : String) (info : ProcedureCodeInfo) (d : String),
      matchDRGHeader (stripS line) = none →
      sContains (stripS line) "OPERATING ROOM PROCEDURES" = false →
      sContains (stripS line) "NON-OPERATING ROOM PROCEDURES" = false →
      sContains (stripS line) "PRINCIPAL" = false →
      sContains (stripS line) "SECONDARY" = false →
      (st.current_section = some MdcSection.opRoom ∨
        st.current_section = some MdcSection.nonOpRoom) →
      matchAnd line = none →
      matchProc line = some (code, rawDesc) →
      alookup st.procedure_codes code = some info →
      st.current_drg = some d → d ≠ "" →
      (mdcStep st line).procedure_codes =
        aset st.procedure_codes code { info with drgs := info.drgs ++ [d] } ∧
      (mdcStep st line).pending_combination = some code)
    ∧ (∀ (st : MDCState) (line code rawDesc anchor : String) (ainfo : ProcedureCodeInfo)
        (d : String),
      matchDRGHeader (stripS line) = none →
      sContains (stripS line) "OPERATING ROOM PROCEDURES" = false →
      sContains (stripS line) "NON-OPERATING ROOM PROCEDURES" = false →
      sContains (stripS line) "PRINCIPAL" = false →
      sContains (stripS line) "SECONDARY" = false →
      (st.current_section = some MdcSection.opRoom ∨
        st.current_section = some MdcSection.nonOpRoom) →
      matchAnd line = some (code, rawDesc) →
      st.pending_combination = some anchor → anchor ≠ "" → code ≠ "" →
      alookup st.procedure_codes anchor = some ainfo →
      st.current_drg = some d → d ≠ "" →
      (mdcStep st line).procedure_codes =
        aset (aset st.procedure_codes anchor
            { ainfo with
              requires_combination := true
              combination_codes := ainfo.combination_codes ++ [code] })
          code
          { code := code, description := stripS rawDesc,
            is_or_procedure := st.is_or_section, drgs := [d] }) := by
  constructor
  · intro st line code rawDesc info d hhdr hor hnor hpr hsec hsect hand hproc hin hd hdne
    have hnd : ¬ st.current_section = some MdcSection.diagnosis := by
      rcases hsect with h | h <;> simp [h]
    simp only [mdcStep, hhdr, hor, hnor, hpr, hsec, Bool.false_and, Bool.false_eq_true,
      if_false, Bool.or_self]
    rw [if_neg hnd, if_pos hsect]
    simp only [hand, hproc, hin, Option.isSome_some, if_true, hd]
    rw [if_pos hdne]
    simp only [hin]
    exact ⟨trivial, trivial⟩
  · intro st line code rawDesc anchor ainfo d hhdr hor hnor hpr hsec hsect hand hpend hane
      hcne hin hd hdne
    have hnd : ¬ st.current_section = some MdcSection.diagnosis := by
      rcases hsect with h | h <;> simp [h]
    simp only [mdcStep, hhdr, hor, hnor, hpr, hsec, Bool.false_and, Bool.false_eq_true,
      if_false, Bool.or_self]
    rw [if_neg hnd, if_pos hsect]
    simp only [hand, hpend]
    rw [if_pos ⟨hane, hcne⟩]
    simp only [hin, hd]
    rw [if_pos hdne]

/-- Witness for the amended C10: a concrete regular-line re-occurrence
appends the current DRG, and a concrete combination line overwrites the
partner's entry while marking the anchor. -/
theorem c10_registration_amended_witness :
    (mdcStep stA1 "  ABCDEF1  again").procedure_codes =
      [("ABCDEF1", { code := "ABCDEF1", description := "first description",
                     is_or_procedure := true, drgs := ["001", "002"] })] ∧
    (mdcStep stA2 "  and ABCDEF1  second description").procedure_codes =
      [("ABCDEF1", { code := "ABCDEF1", description := "second description",
                     is_or_procedure := true, drgs := ["002"] }),
       ("QQQQQ17", { code := "QQQQQ17", description := "anchor procedure",
                     is_or_procedure := true, drgs := ["002"],
                     requires_combination := true, combination_codes := ["ABCDEF1"] })] := by
  constructor
  · have h := (c10_registration_amended).1 stA1 "  ABCDEF1  again" "ABCDEF1" "again"
      { code := "ABCDEF1", description := "first description",
        is_or_procedure := true, drgs := ["001"] } "002"
      (by decide) (by decide) (by decide) (by decide) (by decide) (Or.inl rfl)
      (by decide) (by decide) (by decide) rfl (by decide)
    exact h.1.trans (by decide)
  · have h := (c10_registration_amended).2 stA2 "  and ABCDEF1  second description"
      "ABCDEF1" "second description" "QQQQQ17"
      { code := "QQQQQ17", description := "anchor procedure",
        is_or_procedure := true, drgs := ["002"] } "002"
      (by decide) (by decide) (by decide) (by decide) (by decide) (Or.inl rfl)
      (by decide) rfl (by decide) (by decide) (by decide) rfl (by decide)
    exact h.trans (by decide)
